import Mathlib

/-! Verification of the `reim` real-time example (`src/example/example.c`).

The development embeds the four functions of the example program

* `audio_initializer` / `audio_terminator`  (session lifecycle),
* `audio_callback`                          (per-buffer pipeline orchestrator),
* `input_thread_fn`                         (keyboard control thread),

together with the three `volatile double` modulation globals and `keep_running`.

The vocoder engine (`reim/*.h`) is external to the file: it is taken as a parameter
(`Engine`), so every statement about the orchestrator holds for all engines.
Samples are an arbitrary type `R` carrying the arithmetic the code uses; `F64` below is
the concrete IEEE-754 binary64 instance used whenever a value has to be computed.
-/

namespace Reim

/-! ## IEEE-754 binary64 values (`double`) -/

/-- Auxiliary loop of `bitlen`, structurally recursive on the fuel. -/
def bitlenAux : Nat → Nat → Nat
  | 0, _ => 0
  | fuel + 1, n => if n = 0 then 0 else bitlenAux fuel (n / 2) + 1

/-- Number of binary digits of `n` (`0` for `n = 0`). -/
def bitlen (n : Nat) : Nat := bitlenAux n n

/-- Quotient `n / d` rounded to the nearest integer, ties to even. -/
def rne (n d : Nat) : Nat :=
  let q := n / d
  let r := n % d
  if 2 * r < d then q else if d < 2 * r then q + 1 else if q % 2 = 0 then q else q + 1

/-- A binary64 value up to the sign of zero and the payload of a NaN.
`finite m e` denotes `m * 2 ^ e`; results of the operations below are canonical:
zero is `finite 0 0`, a normal number has `2 ^ 52 ≤ |m| < 2 ^ 53` and `-1074 ≤ e ≤ 971`,
a subnormal number has `|m| < 2 ^ 52` and `e = -1074`. -/
inductive F64 where
  | finite (m : Int) (e : Int)
  | inf (neg : Bool)
  | nan
deriving DecidableEq, Repr

namespace F64

/-- Numerator and denominator of `n / (d * 2 ^ k)`. -/
def scale (n d : Nat) (k : Int) : Nat × Nat :=
  if 0 ≤ k then (n, d * 2 ^ k.toNat) else (n * 2 ^ (-k).toNat, d)

/-- Round the rational `(-1) ^ neg * (n / d) * 2 ^ s` (with `d ≠ 0`) to binary64,
round-to-nearest, ties-to-even, with gradual underflow and overflow to infinity. -/
def round (neg : Bool) (n d : Nat) (s : Int) : F64 :=
  if n = 0 then finite 0 0 else
    -- `n / (d * 2 ^ k0)` lies strictly between `2 ^ 52` and `2 ^ 54`
    let k0 : Int := (bitlen n : Int) - (bitlen d : Int) - 53
    let p0 := scale n d k0
    let k1 : Int := if 2 ^ 53 * p0.2 ≤ p0.1 then k0 + 1 else k0
    -- gradual underflow: the exponent never goes below `-1074`
    let k : Int := if k1 + s < -1074 then -1074 - s else k1
    let p := scale n d k
    let q := rne p.1 p.2
    let m : Nat := if q = 2 ^ 53 then 2 ^ 52 else q
    let e : Int := if q = 2 ^ 53 then k + s + 1 else k + s
    if m = 0 then finite 0 0
    else if 971 < e then inf neg
    else finite (if neg then -(m : Int) else (m : Int)) e

/-- Round the exact value `N * 2 ^ e`. -/
def roundInt (N : Int) (e : Int) : F64 :=
  round (decide (N < 0)) N.natAbs 1 e

/-- Addition `a + b` of two doubles. -/
def add : F64 → F64 → F64
  | nan, _ => nan
  | _, nan => nan
  | inf s, inf t => if s = t then inf s else nan
  | inf s, finite _ _ => inf s
  | finite _ _, inf t => inf t
  | finite a ea, finite b eb =>
    let e := min ea eb
    roundInt (a * 2 ^ (ea - e).toNat + b * 2 ^ (eb - e).toNat) e

/-- Negation. -/
def neg : F64 → F64
  | nan => nan
  | inf s => inf (!s)
  | finite m e => finite (-m) e

/-- Subtraction `a - b` of two doubles. -/
def sub (a b : F64) : F64 := add a (neg b)

/-- Multiplication `a * b` of two doubles. -/
def mul : F64 → F64 → F64
  | nan, _ => nan
  | _, nan => nan
  | inf s, inf t => inf (xor s t)
  | inf s, finite m _ => if m = 0 then nan else inf (xor s (decide (m < 0)))
  | finite m _, inf t => if m = 0 then nan else inf (xor (decide (m < 0)) t)
  | finite a ea, finite b eb => roundInt (a * b) (ea + eb)

/-- Division `a / b` of two doubles (a zero divisor counts as `+0`). -/
def div : F64 → F64 → F64
  | nan, _ => nan
  | _, nan => nan
  | inf _, inf _ => nan
  | inf s, finite m _ => inf (xor s (decide (m < 0)))
  | finite _ _, inf _ => finite 0 0
  | finite a ea, finite b eb =>
    if b = 0 then (if a = 0 then nan else inf (decide (a < 0)))
    else round (xor (decide (a < 0)) (decide (b < 0))) a.natAbs b.natAbs (ea - eb)

/-- Nearest integer, halfway cases away from zero (`lround`); `0` for infinities and NaN. -/
def lround : F64 → Int
  | finite m e =>
    if 0 ≤ e then m * 2 ^ e.toNat
    else
      let d : Nat := 2 ^ (-e).toNat
      let q : Nat := (2 * m.natAbs + d) / (2 * d)
      if m < 0 then -(q : Int) else (q : Int)
  | _ => 0

/-- The double denoted by the decimal literal `m * 10 ^ (-e)` or `m * 10 ^ e`. -/
def ofScientific (m : Nat) (negExp : Bool) (e : Nat) : F64 :=
  if negExp then round false m (10 ^ e) 0 else round false (m * 10 ^ e) 1 0

/-- The rational number denoted by a finite double. -/
def toRat : F64 → Option ℚ
  | finite m e => some ((m : ℚ) * (2 : ℚ) ^ e)
  | _ => none

instance : Add F64 := ⟨add⟩
instance : Sub F64 := ⟨sub⟩
instance : Mul F64 := ⟨mul⟩
instance : Div F64 := ⟨div⟩
instance : Neg F64 := ⟨neg⟩
instance : Zero F64 := ⟨finite 0 0⟩
instance : OfScientific F64 := ⟨ofScientific⟩

end F64

/-! ## Shared state: the `volatile` globals -/

/-- Contents of the three `volatile double` globals `fo_mod_ap`, `fo_mod_sp`,
`fo_mod_syn`. -/
structure ModulationState (R : Type) where
  fo_mod_ap : R
  fo_mod_sp : R
  fo_mod_syn : R
deriving DecidableEq, Repr

/-! ## Memory: allocations owned by a session -/

/-- Allocator that produced an allocation (and the matching deallocator). -/
inductive Resource where
  | audio_data          -- `REIM_ALLOC_SINGLE(audio_data_t)` / `REIM_FREE`
  | audio_frame         -- `create_audio_frame` / `destroy_audio_frame`
  | vocoder_context     -- `create_vocoder_context` / `destroy_vocoder_context`
  | fo_context          -- `create_fo_context` / `destroy_fo_context`
  | sp_context          -- `create_sp_context` / `destroy_sp_context`
  | ap_context          -- `create_ap_context` / `destroy_ap_context`
  | synthesis_context   -- `create_synthesis_context` / `destroy_synthesis_context`
  | vector              -- `allocate_vector` / `free_vector`
deriving DecidableEq, Repr

/-- Observable allocator events. -/
inductive MemEvent where
  | acquire (r : Resource) (addr : Nat)
  | release (r : Resource) (addr : Nat)
deriving DecidableEq, Repr

/-- Faults of the memory model. -/
inductive Fault where
  | null_dereference    -- access through a NULL pointer
  | invalid_free        -- release of an address that is not a live allocation
  | use_after_free      -- access to a released allocation
deriving DecidableEq, Repr

/-- Allocator state: next fresh address, live allocations, event log. -/
structure Heap where
  next : Nat
  live : List (Resource × Nat)
  log : List MemEvent
deriving DecidableEq, Repr

/-- Pointer to an allocation together with the object it points to. -/
structure Owned (α : Type) where
  addr : Nat
  val : α
deriving DecidableEq, Repr

/-- Modelled from the spec: the allocation primitives of `reim/memory.h` and the
`create_*` constructors, which are not part of the file; "all allocation failures are
fatal", so an allocation that returns always yields a fresh live object. -/
def Heap.alloc {α : Type} (h : Heap) (r : Resource) (v : α) : Heap × Owned α :=
  ({ next := h.next + 1, live := (r, h.next) :: h.live,
     log := h.log ++ [MemEvent.acquire r h.next] },
   { addr := h.next, val := v })

/-- Modelled from the spec: the matching release primitives (`destroy_*`, `free_vector`,
`REIM_FREE`); releasing an address that is not live for that allocator is a fault. -/
def Heap.free (h : Heap) (r : Resource) (addr : Nat) : Except Fault Heap :=
  if (r, addr) ∈ h.live then
    .ok { h with live := h.live.erase (r, addr), log := h.log ++ [MemEvent.release r addr] }
  else .error Fault.invalid_free

/-! ## The external vocoder engine -/

/-- A `const double*` window handed to the engine: the buffer it points into and the
element offset of its first sample. -/
structure Window (R : Type) where
  buf : List R
  off : Nat
deriving DecidableEq, Repr

/-- Sample `i` of a window (`w[i]` in C), `none` outside the underlying buffer. -/
def Window.get {R : Type} (w : Window R) (i : Nat) : Option R := w.buf[w.off + i]?

/-- Result of `next_audio_frame`. -/
structure NextFrame (F R : Type) where
  frame : F
  waveform : List R
  ready : Bool

/-- Result of `analyze_silence`. -/
structure SilenceResult (V : Type) where
  vocoder : V
  issilence : Bool

/-- Result of `analyze_fo`. -/
structure FoResult (V C R : Type) where
  vocoder : V
  fo_context : C
  fo : R

/-- Result of `analyze_ap`. -/
structure ApResult (V C R : Type) where
  vocoder : V
  ap_context : C
  ap : List R
  isvoiced : Bool

/-- Result of `analyze_sp`. -/
structure SpResult (V C R : Type) where
  vocoder : V
  sp_context : C
  sp : List R

/-- Result of `synthesize_new_frame`. -/
structure NewFrameResult (V S : Type) where
  vocoder : V
  synthesis : S

/-- Result of `synthesize_next_sample`. -/
structure NextSample (V S R : Type) where
  vocoder : V
  synthesis : S
  sample : R

/-- The engine interface consumed by the example (`reim/*.h`), as state-passing
functions: every call may update the contexts it is handed and the vectors it writes
in place.  Two laws hold of every engine: `allocate_vector n` returns a vector of `n`
elements, and `next_audio_frame` writes into the caller's buffer and therefore cannot
change its size. -/
structure Engine (R : Type) where
  audio_frame_t : Type
  vocoder_context_t : Type
  fo_context_t : Type
  ap_context_t : Type
  sp_context_t : Type
  synthesis_context_t : Type
  REIM_SILENCE_THRESHOLD : R
  create_audio_frame : R → R → Nat → audio_frame_t
  create_vocoder_context : R → Nat → R → R → R → vocoder_context_t
  create_fo_context : vocoder_context_t → fo_context_t
  create_sp_context : vocoder_context_t → sp_context_t
  create_ap_context : vocoder_context_t → ap_context_t
  create_synthesis_context : vocoder_context_t → synthesis_context_t
  allocate_vector : Nat → List R
  allocate_vector_length : ∀ n, (allocate_vector n).length = n
  next_audio_frame : audio_frame_t → R → List R → NextFrame audio_frame_t R
  next_audio_frame_length :
    ∀ f x w, (next_audio_frame f x w).waveform.length = w.length
  analyze_silence : vocoder_context_t → Window R → R → SilenceResult vocoder_context_t
  analyze_fo : vocoder_context_t → fo_context_t → Window R → Window R →
    FoResult vocoder_context_t fo_context_t R
  analyze_ap : vocoder_context_t → ap_context_t → Window R → R → Bool → List R →
    ApResult vocoder_context_t ap_context_t R
  analyze_sp : vocoder_context_t → sp_context_t → Window R → R → Bool → Bool → List R →
    SpResult vocoder_context_t sp_context_t R
  synthesize_new_frame : vocoder_context_t → synthesis_context_t → R → Bool → Bool →
    List R → List R → NewFrameResult vocoder_context_t synthesis_context_t
  synthesize_next_sample : vocoder_context_t → synthesis_context_t →
    NextSample vocoder_context_t synthesis_context_t R

/-! ## `audio_data_t` and the session lifecycle -/

/-- The session record `audio_data_t`: nine owning pointers. -/
structure audio_data_t {R : Type} (E : Engine R) where
  frame : Owned E.audio_frame_t
  vocoder : Owned E.vocoder_context_t
  fo_context : Owned E.fo_context_t
  ap_context : Owned E.ap_context_t
  sp_context : Owned E.sp_context_t
  synthesis : Owned E.synthesis_context_t
  waveform : Owned (List R)
  ap : Owned (List R)
  sp : Owned (List R)

/-- The constant `fftsize` of `audio_initializer`. -/
def fftsize : Nat := 2048

/-- The constant `numbins` of `audio_initializer`. -/
def numbins : Nat := fftsize / 2 + 1

/-- The function `audio_initializer(buffer_size, fs)`: allocates the record, then the frame
assembler, the vocoder context, the fo, sp, ap and synthesis contexts, then the three
vectors, and returns the record as the session handle. -/
def audio_initializer {R : Type} [OfScientific R] (E : Engine R) (h : Heap)
    (_buffer_size : Nat) (fs : R) : Heap × Owned (audio_data_t E) :=
  let period : R := 5.0
  let fo_floor : R := 71.0
  let fo_ceil : R := 800.0
  let a0 := h.alloc Resource.audio_data ()
  let a1 := a0.1.alloc Resource.audio_frame (E.create_audio_frame fs period fftsize)
  let a2 := a1.1.alloc Resource.vocoder_context
    (E.create_vocoder_context period fftsize fo_floor fo_ceil fs)
  let a3 := a2.1.alloc Resource.fo_context (E.create_fo_context a2.2.val)
  let a4 := a3.1.alloc Resource.sp_context (E.create_sp_context a2.2.val)
  let a5 := a4.1.alloc Resource.ap_context (E.create_ap_context a2.2.val)
  let a6 := a5.1.alloc Resource.synthesis_context (E.create_synthesis_context a2.2.val)
  let a7 := a6.1.alloc Resource.vector (E.allocate_vector (fftsize + 1))
  let a8 := a7.1.alloc Resource.vector (E.allocate_vector numbins)
  let a9 := a8.1.alloc Resource.vector (E.allocate_vector numbins)
  (a9.1,
   { addr := a0.2.addr,
     val := { frame := a1.2, vocoder := a2.2, fo_context := a3.2, sp_context := a4.2,
              ap_context := a5.2, synthesis := a6.2, waveform := a7.2, ap := a8.2,
              sp := a9.2 } })

/-- The function `audio_terminator(userdata)`: `*userdata` is the session handle (`none` is
NULL).  The handle is dereferenced without a NULL test; the nine members are released
in the order written in the source, then the record, and the handle is set to NULL. -/
def audio_terminator {R : Type} {E : Engine R} (h : Heap)
    (userdata : Option (Owned (audio_data_t E))) :
    Except Fault (Heap × Option (Owned (audio_data_t E))) :=
  match userdata with
  | none => .error Fault.null_dereference
  | some data =>
    if (Resource.audio_data, data.addr) ∉ h.live then .error Fault.use_after_free else do
      let h ← h.free Resource.audio_frame data.val.frame.addr
      let h ← h.free Resource.vocoder_context data.val.vocoder.addr
      let h ← h.free Resource.fo_context data.val.fo_context.addr
      let h ← h.free Resource.ap_context data.val.ap_context.addr
      let h ← h.free Resource.sp_context data.val.sp_context.addr
      let h ← h.free Resource.synthesis_context data.val.synthesis.addr
      let h ← h.free Resource.vector data.val.waveform.addr
      let h ← h.free Resource.vector data.val.ap.addr
      let h ← h.free Resource.vector data.val.sp.addr
      let h ← h.free Resource.audio_data data.addr
      pure (h, none)

/-- Allocations acquired in an event log, in order. -/
def acquired (l : List MemEvent) : List (Resource × Nat) :=
  l.filterMap fun e => match e with
    | MemEvent.acquire r a => some (r, a)
    | MemEvent.release _ _ => none

/-- Allocations released in an event log, in order. -/
def released (l : List MemEvent) : List (Resource × Nat) :=
  l.filterMap fun e => match e with
    | MemEvent.release r a => some (r, a)
    | MemEvent.acquire _ _ => none

/-- Events logged by `audio_initializer` when run on heap `h`. -/
def open_events {R : Type} [OfScientific R] (E : Engine R) (h : Heap)
    (buffer_size : Nat) (fs : R) : List MemEvent :=
  (audio_initializer E h buffer_size fs).1.log.drop h.log.length

/-- Events logged by `audio_terminator` when run on heap `h` (none when it faults). -/
def close_events {R : Type} {E : Engine R} (h : Heap)
    (userdata : Option (Owned (audio_data_t E))) : List MemEvent :=
  match audio_terminator h userdata with
  | .ok r => r.1.log.drop h.log.length
  | .error _ => []

/-- The ten allocations of a session, named by the member of the record that owns them. -/
def session_resources {R : Type} {E : Engine R} (p : Owned (audio_data_t E)) :
    List (Resource × Nat) :=
  [ (Resource.audio_data, p.addr),
    (Resource.audio_frame, p.val.frame.addr),
    (Resource.vocoder_context, p.val.vocoder.addr),
    (Resource.fo_context, p.val.fo_context.addr),
    (Resource.sp_context, p.val.sp_context.addr),
    (Resource.ap_context, p.val.ap_context.addr),
    (Resource.synthesis_context, p.val.synthesis.addr),
    (Resource.vector, p.val.waveform.addr),
    (Resource.vector, p.val.ap.addr),
    (Resource.vector, p.val.sp.addr) ]

/-- "Released in strict reverse order of acquisition": whenever `A` was acquired before
`B`, `B` is released before `A`. -/
def reverse_order (acq rel : List (Resource × Nat)) : Prop :=
  ∀ A ∈ acq, ∀ B ∈ acq, acq.indexOf A < acq.indexOf B → rel.indexOf B < rel.indexOf A

instance (acq rel : List (Resource × Nat)) : Decidable (reverse_order acq rel) :=
  inferInstanceAs (Decidable (∀ A ∈ acq, ∀ B ∈ acq,
    acq.indexOf A < acq.indexOf B → rel.indexOf B < rel.indexOf A))

/-! ## The pipeline orchestrator `audio_callback` -/

/-- Observable actions of the audio thread: the engine calls with their arguments and
results, and the reads of the `volatile` modulation globals with the value read. -/
inductive Call (R : Type) where
  | next_audio_frame (x : R) (ready : Bool)
  | analyze_silence (waveform : Window R) (threshold : R) (issilence : Bool)
  | analyze_fo (waveform waveform_delayed : Window R) (fo : R)
  | read_fo_mod_ap (v : R)
  | analyze_ap (waveform : Window R) (fo : R) (issilence : Bool) (isvoiced : Bool)
  | read_fo_mod_sp (v : R)
  | analyze_sp (waveform : Window R) (fo : R) (isvoiced issilence : Bool)
  | read_fo_mod_syn (v : R)
  | synthesize_new_frame (fo : R) (isvoiced issilence : Bool) (ap sp : List R)
  | synthesize_next_sample (y : R)
deriving DecidableEq, Repr

/-- State of the audio thread between two samples: the session record and the number of
`volatile` reads it has issued so far.  The environment `vol` of `audio_callback` gives
the contents of the modulation globals seen by the `k`-th such read, which covers every
interleaving with the control thread. -/
structure AudioState {R : Type} (E : Engine R) where
  data : audio_data_t E
  vreads : Nat

/-- Outcome of processing some samples: new state, samples written to `output`, and the
actions performed, in order. -/
structure Run {R : Type} (E : Engine R) where
  state : AudioState E
  output : List R
  trace : List (Call R)

/-- State and actions after part of the processing of one sample. -/
structure Step {R : Type} (E : Engine R) where
  state : AudioState E
  trace : List (Call R)

/-- Body of `if (next_audio_frame(...)) { ... }` in `audio_callback`: the analysis of the
completed frame and the set-up of its synthesis.  The windows are
`waveform = data->waveform + 1` and `waveform_delayed = data->waveform`. -/
def analysis_cycle {R : Type} [Mul R] (E : Engine R) (vol : Nat → ModulationState R)
    (st : AudioState E) : Step E :=
  let data := st.data
  let waveform : Window R := { buf := data.waveform.val, off := 1 }
  let waveform_delayed : Window R := { buf := data.waveform.val, off := 0 }
  let sil := E.analyze_silence data.vocoder.val waveform E.REIM_SILENCE_THRESHOLD
  let issilence := sil.issilence
  let fr := E.analyze_fo sil.vocoder data.fo_context.val waveform waveform_delayed
  let fo := fr.fo
  let m_ap := (vol st.vreads).fo_mod_ap
  let ar := E.analyze_ap fr.vocoder data.ap_context.val waveform (fo * m_ap) issilence
    data.ap.val
  let isvoiced := ar.isvoiced
  let m_sp := (vol (st.vreads + 1)).fo_mod_sp
  let sr := E.analyze_sp ar.vocoder data.sp_context.val waveform (fo * m_sp) isvoiced
    issilence data.sp.val
  let m_syn := (vol (st.vreads + 2)).fo_mod_syn
  let nr := E.synthesize_new_frame sr.vocoder data.synthesis.val (fo * m_syn) isvoiced
    issilence ar.ap sr.sp
  { state :=
      { data := { data with
                    vocoder := { data.vocoder with val := nr.vocoder },
                    fo_context := { data.fo_context with val := fr.fo_context },
                    ap_context := { data.ap_context with val := ar.ap_context },
                    sp_context := { data.sp_context with val := sr.sp_context },
                    synthesis := { data.synthesis with val := nr.synthesis },
                    ap := { data.ap with val := ar.ap },
                    sp := { data.sp with val := sr.sp } },
        vreads := st.vreads + 3 },
    trace :=
      [ Call.analyze_silence waveform E.REIM_SILENCE_THRESHOLD issilence,
        Call.analyze_fo waveform waveform_delayed fo,
        Call.read_fo_mod_ap m_ap,
        Call.analyze_ap waveform (fo * m_ap) issilence isvoiced,
        Call.read_fo_mod_sp m_sp,
        Call.analyze_sp waveform (fo * m_sp) isvoiced issilence,
        Call.read_fo_mod_syn m_syn,
        Call.synthesize_new_frame (fo * m_syn) isvoiced issilence ar.ap sr.sp ] }

/-- Result of the call `next_audio_frame(data->frame, input[i], data->waveform)`. -/
def frame_ready {R : Type} (E : Engine R) (st : AudioState E) (x : R) : Bool :=
  (E.next_audio_frame st.data.frame.val x st.data.waveform.val).ready

/-- State after the call `next_audio_frame(data->frame, input[i], data->waveform)`, which
updates the frame assembler and writes the waveform buffer. -/
def after_next_audio_frame {R : Type} (E : Engine R) (st : AudioState E) (x : R) :
    AudioState E :=
  let nf := E.next_audio_frame st.data.frame.val x st.data.waveform.val
  { st with data := { st.data with frame := { st.data.frame with val := nf.frame },
                                   waveform := { st.data.waveform with val := nf.waveform } } }

/-- The statement `if (next_audio_frame(...)) { ... }` of the loop body. -/
def frame_step {R : Type} [Mul R] (E : Engine R) (vol : Nat → ModulationState R)
    (st : AudioState E) (x : R) : Step E :=
  if frame_ready E st x then analysis_cycle E vol (after_next_audio_frame E st x)
  else { state := after_next_audio_frame E st x, trace := [] }

/-- The call `synthesize_next_sample(data->vocoder, data->synthesis)`: new state and the
sample returned. -/
def next_sample {R : Type} (E : Engine R) (st : AudioState E) : AudioState E × R :=
  let ns := E.synthesize_next_sample st.data.vocoder.val st.data.synthesis.val
  ({ st with data := { st.data with
                         vocoder := { st.data.vocoder with val := ns.vocoder },
                         synthesis := { st.data.synthesis with val := ns.synthesis } } },
   ns.sample)

/-- Body of the `for` loop of `audio_callback` for one input sample `x = input[i]`: the
frame step, then unconditionally `output[i] = synthesize_next_sample(...)`; the single
element of `output` is the value stored to `output[i]`. -/
def audio_callback_sample {R : Type} [Mul R] (E : Engine R)
    (vol : Nat → ModulationState R) (st : AudioState E) (x : R) : Run E :=
  let c := frame_step E vol st x
  let p := next_sample E c.state
  { state := p.1,
    output := [p.2],
    trace := Call.next_audio_frame x (frame_ready E st x) :: c.trace
      ++ [Call.synthesize_next_sample p.2] }

/-- The function `audio_callback(input, output, buffer_size, userdata)`, with `input` the
`buffer_size` samples `input[0..buffer_size-1]`: the loop body is run once per sample,
in order; `output` of the result lists the values stored to `output[0]`, `output[1]`, … -/
def audio_callback {R : Type} [Mul R] (E : Engine R) (vol : Nat → ModulationState R) :
    AudioState E → List R → Run E
  | st, [] => { state := st, output := [], trace := [] }
  | st, x :: input =>
    let r := audio_callback_sample E vol st x
    let rs := audio_callback E vol r.state input
    { state := rs.state, output := r.output ++ rs.output, trace := r.trace ++ rs.trace }

/-- Modelled from the spec: the audio transport (`audio_process_realtime`, not part of
the file), which "invokes `process(input, output, count, session)` repeatedly": one call
of `audio_callback` per buffer of `chunks`, each continuing from the state left by the
previous one. -/
def audio_process {R : Type} [Mul R] (E : Engine R) (vol : Nat → ModulationState R) :
    AudioState E → List (List R) → Run E
  | st, [] => { state := st, output := [], trace := [] }
  | st, chunk :: chunks =>
    let r := audio_callback E vol st chunk
    let rs := audio_process E vol r.state chunks
    { state := rs.state, output := r.output ++ rs.output, trace := r.trace ++ rs.trace }

/-! ## The control thread `input_thread_fn` -/

/-- The process-wide globals: the three modulation scalars and `keep_running`. -/
structure Globals (R : Type) where
  fo_mod_ap : R
  fo_mod_sp : R
  fo_mod_syn : R
  keep_running : Int
deriving DecidableEq, Repr

/-- Initial values of the globals (`1.0`, `1.0`, `1.0`, `1`). -/
def Globals.init {R : Type} [OfScientific R] : Globals R :=
  { fo_mod_ap := 1.0, fo_mod_sp := 1.0, fo_mod_syn := 1.0, keep_running := 1 }

/-- The modulation scalars of the globals. -/
def Globals.mods {R : Type} (g : Globals R) : ModulationState R :=
  { fo_mod_ap := g.fo_mod_ap, fo_mod_sp := g.fo_mod_sp, fo_mod_syn := g.fo_mod_syn }

/-- The terminal attributes `struct termios`. -/
structure termios where
  c_iflag : Nat
  c_oflag : Nat
  c_cflag : Nat
  c_lflag : Nat
  c_cc : List Nat
deriving DecidableEq, Repr

/-- Standard input as the control thread sees it: attributes of the terminal and the
`O_NONBLOCK` file status flag. -/
structure Terminal where
  attrs : termios
  nonblock : Bool
deriving DecidableEq, Repr

/-- Constants of the C library headers used by `input_thread_fn`; `EOF` is a negative
`int`. -/
structure LibC where
  ICANON : Nat
  ECHO : Nat
  EOF : Int
  EOF_neg : EOF < 0

/-- The `int` value of a character constant. -/
def cchar (c : Char) : Int := Int.ofNat c.toNat

/-- The `switch (ch)` statement of `input_thread_fn`. -/
def key_switch {R : Type} [Add R] [Sub R] [OfScientific R] (g : Globals R) (ch : Int) :
    Globals R :=
  if ch = cchar 'q' then { g with fo_mod_ap := g.fo_mod_ap + 0.1 }
  else if ch = cchar 'a' then { g with fo_mod_ap := g.fo_mod_ap - 0.1 }
  else if ch = cchar 'w' then { g with fo_mod_sp := g.fo_mod_sp + 0.1 }
  else if ch = cchar 's' then { g with fo_mod_sp := g.fo_mod_sp - 0.1 }
  else if ch = cchar 'e' then { g with fo_mod_syn := g.fo_mod_syn + 0.1 }
  else if ch = cchar 'd' then { g with fo_mod_syn := g.fo_mod_syn - 0.1 }
  else if ch = cchar 'x' then { g with keep_running := 0 }
  else g

/-- Outcome of the polling loop on a script of `getchar` results. -/
structure LoopResult (R : Type) where
  globals : Globals R
  stdin : List Int                  -- scripted `getchar` results not consumed
  stdout : List (ModulationState R) -- the status lines printed, in order
  sleeps : Nat                      -- number of `usleep(10000)` calls
  exited : Bool                     -- the loop condition was found false
deriving DecidableEq, Repr

/-- The loop `while (keep_running) { ... }` of `input_thread_fn`, run on the successive
results of `getchar()`.  When the script is used up with `keep_running` still set the
thread is left polling (`exited = false`). -/
def input_loop {R : Type} [Add R] [Sub R] [OfScientific R] (L : LibC) :
    Globals R → List Int → LoopResult R
  | g, [] =>
    { globals := g, stdin := [], stdout := [], sleeps := 0,
      exited := decide (g.keep_running = 0) }
  | g, ch :: rest =>
    if g.keep_running = 0 then
      { globals := g, stdin := ch :: rest, stdout := [], sleeps := 0, exited := true }
    else if ch = L.EOF then
      let r := input_loop L g rest
      { r with sleeps := r.sleeps + 1 }
    else
      let g1 := key_switch g ch
      let r := input_loop L g1 rest
      { r with stdout := g1.mods :: r.stdout }

/-- Outcome of `input_thread_fn`. -/
structure ControlResult (R : Type) where
  globals : Globals R
  tty : Terminal
  stdin : List Int
  stdout : List (ModulationState R)
  sleeps : Nat
  returned : Bool
deriving DecidableEq, Repr

/-- The function `input_thread_fn`: save the terminal attributes, clear `ICANON` and `ECHO`,
make standard input non-blocking, run the polling loop, and after the loop restore the
saved attributes. -/
def input_thread_fn {R : Type} [Add R] [Sub R] [OfScientific R] (L : LibC)
    (tty : Terminal) (g : Globals R) (script : List Int) : ControlResult R :=
  let oldt := tty.attrs
  let newt := { oldt with c_lflag := oldt.c_lflag &&& (0xFFFFFFFF ^^^ (L.ICANON ||| L.ECHO)) }
  let tty := { tty with attrs := newt }
  let tty := { tty with nonblock := true }
  let r := input_loop L g script
  { globals := r.globals,
    tty := if r.exited then { tty with attrs := oldt } else tty,
    stdin := r.stdin, stdout := r.stdout, sleeps := r.sleeps, returned := r.exited }

/-! ## Reading a trace -/

/-- Samples pulled from the synthesis engine, in order. -/
def pulled {R : Type} (t : List (Call R)) : List R :=
  t.filterMap fun c => match c with
    | Call.synthesize_next_sample y => some y
    | _ => none

/-- The frame-ready results of the successive `next_audio_frame` calls. -/
def ready_flags {R : Type} (t : List (Call R)) : List Bool :=
  t.filterMap fun c => match c with
    | Call.next_audio_frame _ r => some r
    | _ => none

/-- The names of the actions. -/
inductive CallKind where
  | next_audio_frame | analyze_silence | analyze_fo | read_fo_mod_ap | analyze_ap
  | read_fo_mod_sp | analyze_sp | read_fo_mod_syn | synthesize_new_frame
  | synthesize_next_sample
deriving DecidableEq, Repr

/-- Name of an action. -/
def Call.kind {R : Type} : Call R → CallKind
  | Call.next_audio_frame _ _ => CallKind.next_audio_frame
  | Call.analyze_silence _ _ _ => CallKind.analyze_silence
  | Call.analyze_fo _ _ _ => CallKind.analyze_fo
  | Call.read_fo_mod_ap _ => CallKind.read_fo_mod_ap
  | Call.analyze_ap _ _ _ _ => CallKind.analyze_ap
  | Call.read_fo_mod_sp _ => CallKind.read_fo_mod_sp
  | Call.analyze_sp _ _ _ _ => CallKind.analyze_sp
  | Call.read_fo_mod_syn _ => CallKind.read_fo_mod_syn
  | Call.synthesize_new_frame _ _ _ _ _ => CallKind.synthesize_new_frame
  | Call.synthesize_next_sample _ => CallKind.synthesize_next_sample

/-- Number of actions named `k` in a trace. -/
def count {R : Type} (k : CallKind) (t : List (Call R)) : Nat :=
  (t.map Call.kind).count k

/-- Number of completed frames reported in a trace. -/
def frames {R : Type} (t : List (Call R)) : Nat := (ready_flags t).count true

/-! ## The frame assembler -/

/-- Modelled from the spec: the frame assembler `audio_frame_t` of `reim/audio_frame.h`,
which is not part of the file: "a free-running counter reset to zero each time it
fires", with the frame period `N` in samples. -/
structure FrameAssembler where
  period : Nat
  counter : Nat
deriving DecidableEq, Repr

/-- Modelled from the spec: `create_audio_frame(fs, period, fftsize)`; the period in
samples is `N = round(period_ms × sample_rate / 1000)` and the stream starts with the
counter at zero. -/
def FrameAssembler.create {R : Type} [Mul R] [Div R] [OfScientific R] (lround : R → Int)
    (fs period : R) (_fftsize : Nat) : FrameAssembler :=
  { period := (lround (period * fs / 1000.0)).toNat, counter := 0 }

/-- Modelled from the spec: the delay line "appends one sample ..., discarding the
oldest"; the newest sample is the last one of the buffer. -/
def delay_line_push {R : Type} (x : R) : List R → List R
  | [] => []
  | _ :: t => t ++ [x]

/-- Modelled from the spec: `next_audio_frame(frame, sample, waveform)` pushes the sample
into the delay line and "returns true exactly once every `N` calls". -/
def FrameAssembler.push {R : Type} (f : FrameAssembler) (x : R) (w : List R) :
    NextFrame FrameAssembler R :=
  let fire : Bool := decide (f.counter + 1 = f.period)
  { frame := { f with counter := if fire then 0 else f.counter + 1 },
    waveform := delay_line_push x w,
    ready := fire }

/-- An engine whose frame assembler is the one described by the specification; the
analysis and synthesis functions are those of `E`. -/
def Engine.withFrameAssembler {R : Type} [Mul R] [Div R] [OfScientific R] (E : Engine R)
    (lround : R → Int) : Engine R :=
  { E with
    audio_frame_t := FrameAssembler
    create_audio_frame := FrameAssembler.create lround
    next_audio_frame := FrameAssembler.push
    next_audio_frame_length := by
      intro f x w
      cases w <;> simp [FrameAssembler.push, delay_line_push] }

/-! ## A test double of the engine on `double` samples -/

/-- A small engine used to run the orchestrator on concrete inputs: a frame is "silent"
when its newest sample is zero, the pitch estimate is the newest sample of the frame, the
aperiodicity and envelope vectors hold the pitch they were computed for, and
the synthesis engine emits the pitch of the frame it was last set up for.  Its own
frame assembler completes a frame on every second sample. -/
def testEngine : Engine F64 where
  audio_frame_t := Bool
  vocoder_context_t := Unit
  fo_context_t := Unit
  ap_context_t := Unit
  sp_context_t := Unit
  synthesis_context_t := F64
  REIM_SILENCE_THRESHOLD := 0.001
  create_audio_frame := fun _ _ _ => false
  create_vocoder_context := fun _ _ _ _ _ => ()
  create_fo_context := fun _ => ()
  create_sp_context := fun _ => ()
  create_ap_context := fun _ => ()
  create_synthesis_context := fun _ => 0
  allocate_vector := fun n => List.replicate n 0
  allocate_vector_length := fun n => List.length_replicate n 0
  next_audio_frame := fun f x w =>
    { frame := !f, waveform := delay_line_push x w, ready := f }
  next_audio_frame_length := by
    intro f x w
    cases w <;> simp [delay_line_push]
  analyze_silence := fun v w _ =>
    { vocoder := v, issilence := decide (w.buf.getLast? = some 0) }
  analyze_fo := fun v c w _ => { vocoder := v, fo_context := c, fo := w.buf.getLast?.getD 0 }
  analyze_ap := fun v c _ fo issilence _ =>
    { vocoder := v, ap_context := c, ap := [fo], isvoiced := !issilence }
  analyze_sp := fun v c _ fo _ _ _ => { vocoder := v, sp_context := c, sp := [fo] }
  synthesize_new_frame := fun v _ fo _ _ _ _ => { vocoder := v, synthesis := fo }
  synthesize_next_sample := fun v s => { vocoder := v, synthesis := s, sample := s }

/-- The test double with the specified frame assembler. -/
def specEngine : Engine F64 := testEngine.withFrameAssembler F64.lround

/-- A session record with empty contexts, for runs that do not start from
`audio_initializer`. -/
def testData (w : List F64) : audio_data_t testEngine :=
  { frame := ⟨1, false⟩, vocoder := ⟨2, ()⟩, fo_context := ⟨3, ()⟩, ap_context := ⟨5, ()⟩,
    sp_context := ⟨4, ()⟩, synthesis := ⟨6, (0 : F64)⟩, waveform := ⟨7, w⟩, ap := ⟨8, []⟩,
    sp := ⟨9, []⟩ }

/-- Modulation globals holding `1.0`, `2.0`, `3.0` throughout. -/
def testVol : Nat → ModulationState F64 := fun _ =>
  { fo_mod_ap := 1.0, fo_mod_sp := 2.0, fo_mod_syn := 3.0 }

/-- The session opened by `audio_initializer(4096, 48000)` as in `main`, at stream start,
on the engine with the specified frame assembler. -/
def mainState : AudioState specEngine :=
  { data := (audio_initializer specEngine { next := 1, live := [], log := [] } 4096 48000.0).2.val,
    vreads := 0 }

/-- The session opened by `audio_initializer(4096, 48000)` on the test double, after the
one-sample buffer `[1.0]` has been processed. -/
def testStateAfterOne : AudioState testEngine :=
  (audio_callback testEngine testVol
    { data := (audio_initializer testEngine { next := 1, live := [], log := [] } 4096 48000.0).2.val,
      vreads := 0 } [1.0]).state

/-- The waveform buffer of that session once the next sample `2.0` has been pushed. -/
def testWaveform : List F64 :=
  (testEngine.next_audio_frame testStateAfterOne.data.frame.val 2.0
    testStateAfterOne.data.waveform.val).waveform

/-- A session state of the test double with a three-sample waveform buffer. -/
def testState : AudioState testEngine := { data := testData [0, 0, 0], vreads := 0 }

/-- The empty heap. -/
def Heap.empty : Heap := { next := 1, live := [], log := [] }


/-! ## Reading the effect of a keystroke script -/

/-- The value of one scalar after a script, starting from `v`: in keystroke order, one
addition of `0.1` per increment key and one subtraction of `0.1` per decrement key, every
other `getchar` result leaving the value as it is. -/
def apply_keys {R : Type} [Add R] [Sub R] [OfScientific R] (inc dec : Int) (v : R)
    (script : List Int) : R :=
  script.foldl (fun v ch => if ch = inc then v + 0.1 else if ch = dec then v - 0.1 else v) v

/-- The constants of a Linux C library. -/
def linuxLibC : LibC := { ICANON := 2, ECHO := 8, EOF := -1, EOF_neg := by decide }

/-- A terminal in canonical mode with echo. -/
def cookedTerminal : Terminal :=
  { attrs := { c_iflag := 0x4500, c_oflag := 0x5, c_cflag := 0xbf, c_lflag := 0x8a3b, c_cc := [] },
    nonblock := false }

set_option maxRecDepth 8192

/-! ## Sanity checks of the binary64 arithmetic -/

/-- The literals `1.0`, `0.1` and `1.5` denote the doubles `0x1p0`, `0x1.999999999999ap-4`
and `0x1.8p0`. -/
theorem F64_literals :
    (1.0 : F64) = F64.finite 4503599627370496 (-52)
      ∧ (0.1 : F64) = F64.finite 7205759403792794 (-56)
      ∧ (1.5 : F64) = F64.finite 6755399441055744 (-52) := by
  decide

/-- The double `0.1` is within half a unit in the last place (`2^-57`) of one tenth. -/
theorem F64_tenth_nearest :
    ∃ q : ℚ, F64.toRat (0.1 : F64) = some q ∧ |q - 1 / 10| ≤ 1 / 2 ^ 57 := by
  refine ⟨(7205759403792794 : ℚ) * (2 : ℚ) ^ (-56 : ℤ), ?_, ?_⟩
  · have h : (0.1 : F64) = F64.finite 7205759403792794 (-56) := by decide
    rw [h]
    simp [F64.toRat]
  · rw [abs_le]
    constructor <;> norm_num

/-- Five successive additions of `0.1` to `1.0` give the double `1.5 + 2^-51`, while the
product form `1.0 + 5 * 0.1` gives the double `1.5`. -/
theorem F64_five_steps :
    (1.0 : F64) + 0.1 + 0.1 + 0.1 + 0.1 + 0.1 = F64.finite 6755399441055746 (-52)
      ∧ F64.toRat (F64.finite 6755399441055746 (-52)) = some (3 / 2 + 1 / 2 ^ 51)
      ∧ (1.0 : F64) + 5.0 * 0.1 = 1.5 := by
  refine ⟨by decide, ?_, by decide⟩
  simp only [F64.toRat, Option.some.injEq]
  norm_num

/-! ## Lemmas on traces -/

section Traces

variable {R : Type}

theorem pulled_append (s t : List (Call R)) : pulled (s ++ t) = pulled s ++ pulled t := by
  simp [pulled, List.filterMap_append]

theorem ready_flags_append (s t : List (Call R)) :
    ready_flags (s ++ t) = ready_flags s ++ ready_flags t := by
  simp [ready_flags, List.filterMap_append]

theorem count_append (k : CallKind) (s t : List (Call R)) :
    count k (s ++ t) = count k s + count k t := by
  simp [count, List.count_append]

theorem frames_append (s t : List (Call R)) : frames (s ++ t) = frames s + frames t := by
  simp [frames, ready_flags_append, List.count_append]

end Traces

/-! ## The loop body -/

section LoopBody

variable {R : Type} [Mul R] (E : Engine R) (vol : Nat → ModulationState R)

/-- The trace of the analysis block, spelled out. -/
theorem analysis_cycle_trace (st : AudioState E) :
    (analysis_cycle E vol st).trace =
      (let waveform : Window R := { buf := st.data.waveform.val, off := 1 }
       let waveform_delayed : Window R := { buf := st.data.waveform.val, off := 0 }
       let sil := E.analyze_silence st.data.vocoder.val waveform E.REIM_SILENCE_THRESHOLD
       let fr := E.analyze_fo sil.vocoder st.data.fo_context.val waveform waveform_delayed
       let m_ap := (vol st.vreads).fo_mod_ap
       let ar := E.analyze_ap fr.vocoder st.data.ap_context.val waveform (fr.fo * m_ap)
         sil.issilence st.data.ap.val
       let m_sp := (vol (st.vreads + 1)).fo_mod_sp
       let sr := E.analyze_sp ar.vocoder st.data.sp_context.val waveform (fr.fo * m_sp)
         ar.isvoiced sil.issilence st.data.sp.val
       let m_syn := (vol (st.vreads + 2)).fo_mod_syn
       [ Call.analyze_silence waveform E.REIM_SILENCE_THRESHOLD sil.issilence,
         Call.analyze_fo waveform waveform_delayed fr.fo,
         Call.read_fo_mod_ap m_ap,
         Call.analyze_ap waveform (fr.fo * m_ap) sil.issilence ar.isvoiced,
         Call.read_fo_mod_sp m_sp,
         Call.analyze_sp waveform (fr.fo * m_sp) ar.isvoiced sil.issilence,
         Call.read_fo_mod_syn m_syn,
         Call.synthesize_new_frame (fr.fo * m_syn) ar.isvoiced sil.issilence ar.ap sr.sp ]) :=
  rfl

/-- The analysis block pulls no sample, pushes no sample, and issues each of its eight
actions once. -/
theorem analysis_cycle_counts (st : AudioState E) :
    pulled (analysis_cycle E vol st).trace = []
      ∧ ready_flags (analysis_cycle E vol st).trace = []
      ∧ (∀ k, count k (analysis_cycle E vol st).trace =
          if k = CallKind.next_audio_frame ∨ k = CallKind.synthesize_next_sample then 0 else 1)
      ∧ (analysis_cycle E vol st).state.vreads = st.vreads + 3
      ∧ (analysis_cycle E vol st).state.data.waveform = st.data.waveform
      ∧ (analysis_cycle E vol st).state.data.frame = st.data.frame := by
  refine ⟨by simp [analysis_cycle, pulled], by simp [analysis_cycle, ready_flags], ?_,
    rfl, rfl, rfl⟩
  intro k
  cases k <;> simp [analysis_cycle, count, Call.kind]

/-- What one loop iteration pulls and pushes. -/
theorem audio_callback_sample_io (st : AudioState E) (x : R) :
    pulled (audio_callback_sample E vol st x).trace = (audio_callback_sample E vol st x).output
      ∧ (audio_callback_sample E vol st x).output.length = 1
      ∧ ready_flags (audio_callback_sample E vol st x).trace = [frame_ready E st x] := by
  have h := analysis_cycle_counts E vol (after_next_audio_frame E st x)
  by_cases hr : frame_ready E st x = true
  · simp only [audio_callback_sample, frame_step, hr, if_true]
    rw [List.cons_append, ← List.singleton_append]
    simp only [pulled_append, ready_flags_append, h.1, h.2.1]
    simp [pulled, ready_flags]
  · simp [audio_callback_sample, frame_step, hr, pulled, ready_flags]

/-- How often each action occurs in one loop iteration. -/
theorem audio_callback_sample_count (st : AudioState E) (x : R) (k : CallKind) :
    count k (audio_callback_sample E vol st x).trace =
      if k = CallKind.next_audio_frame ∨ k = CallKind.synthesize_next_sample then 1
      else if frame_ready E st x = true then 1 else 0 := by
  have h := (analysis_cycle_counts E vol (after_next_audio_frame E st x)).2.2.1 k
  by_cases hr : frame_ready E st x = true
  · simp only [audio_callback_sample, frame_step, hr, if_true]
    rw [List.cons_append, ← List.singleton_append, count_append, count_append, h]
    cases k <;> simp [count, Call.kind]
  · simp only [audio_callback_sample, frame_step, hr]
    cases k <;> simp [count, Call.kind]

/-- The actions of a loop iteration that completes a frame: the push, the analysis block
with each modulation global read just before the call that uses it, the pull. -/
theorem audio_callback_sample_ready (st : AudioState E) (x : R)
    (hr : (E.next_audio_frame st.data.frame.val x st.data.waveform.val).ready = true) :
    ∃ (w wd : Window R) (issilence isvoiced : Bool) (fo y : R) (ap sp : List R),
      (audio_callback_sample E vol st x).trace =
        [ Call.next_audio_frame x true,
          Call.analyze_silence w E.REIM_SILENCE_THRESHOLD issilence,
          Call.analyze_fo w wd fo,
          Call.read_fo_mod_ap (vol st.vreads).fo_mod_ap,
          Call.analyze_ap w (fo * (vol st.vreads).fo_mod_ap) issilence isvoiced,
          Call.read_fo_mod_sp (vol (st.vreads + 1)).fo_mod_sp,
          Call.analyze_sp w (fo * (vol (st.vreads + 1)).fo_mod_sp) isvoiced issilence,
          Call.read_fo_mod_syn (vol (st.vreads + 2)).fo_mod_syn,
          Call.synthesize_new_frame (fo * (vol (st.vreads + 2)).fo_mod_syn) isvoiced issilence
            ap sp,
          Call.synthesize_next_sample y ]
      ∧ (audio_callback_sample E vol st x).output = [y] := by
  have hr1 : frame_ready E st x = true := hr
  simp only [audio_callback_sample, frame_step, hr1, if_true, analysis_cycle_trace]
  exact ⟨_, _, _, _, _, _, _, _, rfl, rfl⟩

/-- The actions of a loop iteration that completes no frame: the push and the pull. -/
theorem audio_callback_sample_idle (st : AudioState E) (x : R)
    (hr : (E.next_audio_frame st.data.frame.val x st.data.waveform.val).ready = false) :
    (audio_callback_sample E vol st x).trace =
      [ Call.next_audio_frame x false,
        Call.synthesize_next_sample
          (E.synthesize_next_sample st.data.vocoder.val st.data.synthesis.val).sample ] := by
  have hr1 : frame_ready E st x = false := hr
  simp [audio_callback_sample, frame_step, hr1, next_sample, after_next_audio_frame]

end LoopBody

/-! ## Buffers and chunking -/

section Buffers

variable {R : Type} [Mul R] (E : Engine R) (vol : Nat → ModulationState R)

/-- Processing a buffer in two consecutive calls is processing it in one. -/
theorem audio_callback_append (st : AudioState E) (xs ys : List R) :
    audio_callback E vol st (xs ++ ys) =
      { state := (audio_callback E vol (audio_callback E vol st xs).state ys).state,
        output := (audio_callback E vol st xs).output ++
          (audio_callback E vol (audio_callback E vol st xs).state ys).output,
        trace := (audio_callback E vol st xs).trace ++
          (audio_callback E vol (audio_callback E vol st xs).state ys).trace } := by
  induction xs generalizing st with
  | nil => simp [audio_callback]
  | cons x xs ih => simp [audio_callback, ih, List.append_assoc]

/-- The transport's sequence of calls is one call on the concatenated stream. -/
theorem audio_process_eq (st : AudioState E) (chunks : List (List R)) :
    audio_process E vol st chunks = audio_callback E vol st chunks.flatten := by
  induction chunks generalizing st with
  | nil => simp [audio_process, audio_callback]
  | cons c cs ih => simp [audio_process, ih, audio_callback_append]

/-- One call pulls one sample per input sample, and pushes each input sample once. -/
theorem audio_callback_io (st : AudioState E) (input : List R) :
    pulled (audio_callback E vol st input).trace = (audio_callback E vol st input).output
      ∧ (audio_callback E vol st input).output.length = input.length
      ∧ (ready_flags (audio_callback E vol st input).trace).length = input.length := by
  induction input generalizing st with
  | nil => simp [audio_callback, pulled, ready_flags]
  | cons x xs ih =>
    have h1 := audio_callback_sample_io E vol st x
    have h2 := ih (audio_callback_sample E vol st x).state
    simp only [audio_callback, pulled_append, ready_flags_append, h1.1, h2.1,
      List.length_append, h1.2.1, h1.2.2, h2.2.1, h2.2.2, List.length_cons, List.length_nil]
    exact ⟨trivial, by omega, by omega⟩

/-- Number of occurrences of each action in one call. -/
theorem audio_callback_count (st : AudioState E) (input : List R) (k : CallKind) :
    count k (audio_callback E vol st input).trace =
      if k = CallKind.next_audio_frame ∨ k = CallKind.synthesize_next_sample then input.length
      else frames (audio_callback E vol st input).trace := by
  induction input generalizing st with
  | nil =>
    simp [audio_callback, count, frames, ready_flags]
  | cons x xs ih =>
    have h1 := audio_callback_sample_count E vol st x k
    have h2 := ih (audio_callback_sample E vol st x).state
    have h3 := (audio_callback_sample_io E vol st x).2.2
    simp only [audio_callback, count_append, frames_append, h1, h2]
    by_cases hk : k = CallKind.next_audio_frame ∨ k = CallKind.synthesize_next_sample
    · simp only [hk, if_true, List.length_cons]
      omega
    · simp only [hk, if_false, frames, h3]
      by_cases hr : frame_ready E st x = true <;> simp [hr]

end Buffers

/-! ## C1 -/

/-- C1: for every engine, session state, environment of the modulation globals and every
splitting `chunks` of an input stream into consecutive buffers, the calls of
`audio_callback` together write as many output samples as there are input samples;
each single call writes exactly one value per input sample of its buffer; the values
written are exactly the values pulled from `synthesize_next_sample`, one per input
sample; and the result does not depend on the chunking. -/
theorem C1_output_length_equals_input_length {R : Type} [Mul R] (E : Engine R)
    (vol : Nat → ModulationState R) (st : AudioState E) (chunks : List (List R)) :
    (audio_process E vol st chunks).output.length = chunks.flatten.length
      ∧ (∀ (st1 : AudioState E) (input : List R),
          (audio_callback E vol st1 input).output.length = input.length)
      ∧ pulled (audio_process E vol st chunks).trace = (audio_process E vol st chunks).output
      ∧ count CallKind.synthesize_next_sample (audio_process E vol st chunks).trace
          = chunks.flatten.length
      ∧ count CallKind.next_audio_frame (audio_process E vol st chunks).trace
          = chunks.flatten.length
      ∧ audio_process E vol st chunks = audio_callback E vol st chunks.flatten := by
  have h := audio_callback_io E vol st chunks.flatten
  have hs := audio_callback_count E vol st chunks.flatten CallKind.synthesize_next_sample
  have hn := audio_callback_count E vol st chunks.flatten CallKind.next_audio_frame
  rw [audio_process_eq]
  refine ⟨h.2.1, fun st1 input => (audio_callback_io E vol st1 input).2.1, h.1, ?_, ?_, rfl⟩
  · simpa using hs
  · simpa using hn

/-! ## C2 -/

/-- C2: whenever `next_audio_frame` reports a completed frame for a sample `x` of a buffer
(reached in state `s0` after the samples `pre`), the actions of `audio_callback` for that
sample are exactly: `next_audio_frame`; `analyze_silence` on the current window with
`REIM_SILENCE_THRESHOLD`; `analyze_fo` on the current and delayed windows; `analyze_ap`
with pitch `fo * fo_mod_ap` and `issilence`; `analyze_sp` with pitch `fo * fo_mod_sp`,
`isvoiced`, `issilence`; `synthesize_new_frame` with pitch `fo * fo_mod_syn`, `isvoiced`,
`issilence` and the vectors written by `analyze_ap` and `analyze_sp`; and only then the
pull of the output sample for that position.  Each modulation global is read just before
the call that uses it. -/
theorem C2_frame_cycle_call_sequence {R : Type} [Mul R] (E : Engine R)
    (vol : Nat → ModulationState R) (st : AudioState E) (pre : List R) (x : R)
    (post : List R)
    (hready : (E.next_audio_frame (audio_callback E vol st pre).state.data.frame.val x
      (audio_callback E vol st pre).state.data.waveform.val).ready = true) :
    let s0 := (audio_callback E vol st pre).state
    let nf := E.next_audio_frame s0.data.frame.val x s0.data.waveform.val
    let waveform : Window R := { buf := nf.waveform, off := 1 }
    let waveform_delayed : Window R := { buf := nf.waveform, off := 0 }
    let sil := E.analyze_silence s0.data.vocoder.val waveform E.REIM_SILENCE_THRESHOLD
    let fr := E.analyze_fo sil.vocoder s0.data.fo_context.val waveform waveform_delayed
    let m_ap := (vol s0.vreads).fo_mod_ap
    let ar := E.analyze_ap fr.vocoder s0.data.ap_context.val waveform (fr.fo * m_ap)
      sil.issilence s0.data.ap.val
    let m_sp := (vol (s0.vreads + 1)).fo_mod_sp
    let sr := E.analyze_sp ar.vocoder s0.data.sp_context.val waveform (fr.fo * m_sp)
      ar.isvoiced sil.issilence s0.data.sp.val
    let m_syn := (vol (s0.vreads + 2)).fo_mod_syn
    let nr := E.synthesize_new_frame sr.vocoder s0.data.synthesis.val (fr.fo * m_syn)
      ar.isvoiced sil.issilence ar.ap sr.sp
    let ns := E.synthesize_next_sample nr.vocoder nr.synthesis
    (audio_callback E vol st (pre ++ x :: post)).trace =
      (audio_callback E vol st pre).trace ++
        [ Call.next_audio_frame x true,
          Call.analyze_silence waveform E.REIM_SILENCE_THRESHOLD sil.issilence,
          Call.analyze_fo waveform waveform_delayed fr.fo,
          Call.read_fo_mod_ap m_ap,
          Call.analyze_ap waveform (fr.fo * m_ap) sil.issilence ar.isvoiced,
          Call.read_fo_mod_sp m_sp,
          Call.analyze_sp waveform (fr.fo * m_sp) ar.isvoiced sil.issilence,
          Call.read_fo_mod_syn m_syn,
          Call.synthesize_new_frame (fr.fo * m_syn) ar.isvoiced sil.issilence ar.ap sr.sp,
          Call.synthesize_next_sample ns.sample ] ++
        (audio_callback E vol (audio_callback E vol st (pre ++ [x])).state post).trace
      ∧ (audio_callback E vol st (pre ++ x :: post)).output[pre.length]? = some ns.sample := by
  intro s0 nf waveform waveform_delayed sil fr m_ap ar m_sp sr m_syn nr ns
  have hr : frame_ready E s0 x = true := hready
  have htrace : (audio_callback_sample E vol s0 x).trace =
      [ Call.next_audio_frame x true,
        Call.analyze_silence waveform E.REIM_SILENCE_THRESHOLD sil.issilence,
        Call.analyze_fo waveform waveform_delayed fr.fo,
        Call.read_fo_mod_ap m_ap,
        Call.analyze_ap waveform (fr.fo * m_ap) sil.issilence ar.isvoiced,
        Call.read_fo_mod_sp m_sp,
        Call.analyze_sp waveform (fr.fo * m_sp) ar.isvoiced sil.issilence,
        Call.read_fo_mod_syn m_syn,
        Call.synthesize_new_frame (fr.fo * m_syn) ar.isvoiced sil.issilence ar.ap sr.sp,
        Call.synthesize_next_sample ns.sample ] := by
    simp only [audio_callback_sample, frame_step, hr, if_true]
    rfl
  have hout : (audio_callback_sample E vol s0 x).output = [ns.sample] := by
    simp only [audio_callback_sample, frame_step, hr, if_true]
    rfl
  have hlen := (audio_callback_io E vol st pre).2.1
  have hone : audio_callback E vol s0 [x] =
      { state := (audio_callback_sample E vol s0 x).state,
        output := (audio_callback_sample E vol s0 x).output,
        trace := (audio_callback_sample E vol s0 x).trace } := by
    simp [audio_callback]
  have hcons : audio_callback E vol s0 (x :: post) =
      { state := (audio_callback E vol (audio_callback_sample E vol s0 x).state post).state,
        output := (audio_callback_sample E vol s0 x).output ++
          (audio_callback E vol (audio_callback_sample E vol s0 x).state post).output,
        trace := (audio_callback_sample E vol s0 x).trace ++
          (audio_callback E vol (audio_callback_sample E vol s0 x).state post).trace } := rfl
  have hstate : (audio_callback E vol st (pre ++ [x])).state
      = (audio_callback_sample E vol s0 x).state := by
    rw [audio_callback_append, hone]
  constructor
  · rw [audio_callback_append, hcons, hstate]
    simp only [List.append_assoc]
    rw [htrace]
  · rw [audio_callback_append, hcons]
    simp only []
    rw [List.getElem?_append_right (by omega), hlen, Nat.sub_self, hout]
    simp

/-- Witness of C2: the test double completes a frame on the second sample of the buffer
`[1.0, 2.0, 3.0]`; with the modulation globals at `1.0`, `2.0`, `3.0` the pitch `2.0` of
that frame reaches the three calls as `2.0`, `4.0` and `6.0`. -/
theorem C2_frame_cycle_call_sequence_witness :
    (testEngine.next_audio_frame
        (audio_callback testEngine testVol testState [1.0]).state.data.frame.val 2.0
        (audio_callback testEngine testVol testState [1.0]).state.data.waveform.val).ready = true
      ∧ (audio_callback testEngine testVol testState ([1.0] ++ 2.0 :: [3.0])).trace =
          (audio_callback testEngine testVol testState [1.0]).trace ++
          [ Call.next_audio_frame 2.0 true,
            Call.analyze_silence ⟨[0, 1.0, 2.0], 1⟩ 0.001 false,
            Call.analyze_fo ⟨[0, 1.0, 2.0], 1⟩ ⟨[0, 1.0, 2.0], 0⟩ 2.0,
            Call.read_fo_mod_ap 1.0,
            Call.analyze_ap ⟨[0, 1.0, 2.0], 1⟩ 2.0 false true,
            Call.read_fo_mod_sp 2.0,
            Call.analyze_sp ⟨[0, 1.0, 2.0], 1⟩ 4.0 true false,
            Call.read_fo_mod_syn 3.0,
            Call.synthesize_new_frame 6.0 true false [2.0] [4.0],
            Call.synthesize_next_sample 6.0 ] ++
          (audio_callback testEngine testVol
            (audio_callback testEngine testVol testState ([1.0] ++ [2.0])).state [3.0]).trace
      ∧ (audio_callback testEngine testVol testState ([1.0] ++ 2.0 :: [3.0])).output[1]?
          = some (6.0 : F64) :=
  ⟨by decide, C2_frame_cycle_call_sequence testEngine testVol testState [1.0] 2.0 [3.0]
    (by decide)⟩

/-! ## C10 -/

/-- Volatile reads issued by one loop iteration: three when a frame completed, none
otherwise. -/
theorem audio_callback_sample_vreads {R : Type} [Mul R] (E : Engine R)
    (vol : Nat → ModulationState R) (st : AudioState E) (x : R) :
    (audio_callback_sample E vol st x).state.vreads =
      st.vreads + 3 * (if frame_ready E st x = true then 1 else 0) := by
  by_cases hr : frame_ready E st x = true
  · simp [audio_callback_sample, frame_step, hr, next_sample, analysis_cycle,
      after_next_audio_frame]
  · simp [audio_callback_sample, frame_step, hr, next_sample, after_next_audio_frame]

/-- Volatile reads issued by one call: three per completed frame. -/
theorem audio_callback_vreads {R : Type} [Mul R] (E : Engine R)
    (vol : Nat → ModulationState R) (st : AudioState E) (input : List R) :
    (audio_callback E vol st input).state.vreads =
      st.vreads + 3 * frames (audio_callback E vol st input).trace := by
  induction input generalizing st with
  | nil => simp [audio_callback, frames, ready_flags]
  | cons x xs ih =>
    have h1 := audio_callback_sample_vreads E vol st x
    have h2 := ih (audio_callback_sample E vol st x).state
    have h3 := (audio_callback_sample_io E vol st x).2.2
    simp only [audio_callback, frames_append, h2, h1]
    simp only [frames, h3]
    by_cases hr : frame_ready E st x = true
    · simp [hr]
      omega
    · simp [hr]

/-- The completed frames of a call are at most its samples. -/
theorem frames_le_length {R : Type} [Mul R] (E : Engine R)
    (vol : Nat → ModulationState R) (st : AudioState E) (input : List R) :
    frames (audio_callback E vol st input).trace ≤ input.length := by
  have h := (audio_callback_io E vol st input).2.2
  unfold frames
  calc (ready_flags (audio_callback E vol st input).trace).count true
      ≤ (ready_flags (audio_callback E vol st input).trace).length := List.count_le_length _ _
    _ = input.length := h

/-- C10 (as amended): `audio_callback` reads each of `fo_mod_ap`, `fo_mod_sp` and
`fo_mod_syn` once per completed frame and not at all on the samples that complete no
frame.  For a buffer of `count` samples each scalar is read as many times as
`next_audio_frame` reports a completed frame in that buffer, which is at most `count`;
a sample completing no frame performs only the push and the pull; a sample completing a
frame reads each scalar exactly once, just before the call of `analyze_ap`, `analyze_sp`
or `synthesize_new_frame` into whose pitch argument the value read is multiplied. -/
theorem C10_modulation_read_once_per_frame {R : Type} [Mul R] (E : Engine R)
    (vol : Nat → ModulationState R) (st : AudioState E) (input : List R) :
    count CallKind.read_fo_mod_ap (audio_callback E vol st input).trace
        = frames (audio_callback E vol st input).trace
      ∧ count CallKind.read_fo_mod_sp (audio_callback E vol st input).trace
        = frames (audio_callback E vol st input).trace
      ∧ count CallKind.read_fo_mod_syn (audio_callback E vol st input).trace
        = frames (audio_callback E vol st input).trace
      ∧ frames (audio_callback E vol st input).trace ≤ input.length
      ∧ (audio_callback E vol st input).state.vreads
        = st.vreads + 3 * frames (audio_callback E vol st input).trace
      ∧ (∀ (s : AudioState E) (x : R),
          (E.next_audio_frame s.data.frame.val x s.data.waveform.val).ready = false →
          (audio_callback_sample E vol s x).trace =
            [ Call.next_audio_frame x false,
              Call.synthesize_next_sample
                (E.synthesize_next_sample s.data.vocoder.val s.data.synthesis.val).sample ])
      ∧ (∀ (s : AudioState E) (x : R),
          (E.next_audio_frame s.data.frame.val x s.data.waveform.val).ready = true →
          ∃ (w wd : Window R) (issilence isvoiced : Bool) (fo y : R) (ap sp : List R),
            (audio_callback_sample E vol s x).trace =
              [ Call.next_audio_frame x true,
                Call.analyze_silence w E.REIM_SILENCE_THRESHOLD issilence,
                Call.analyze_fo w wd fo,
                Call.read_fo_mod_ap (vol s.vreads).fo_mod_ap,
                Call.analyze_ap w (fo * (vol s.vreads).fo_mod_ap) issilence isvoiced,
                Call.read_fo_mod_sp (vol (s.vreads + 1)).fo_mod_sp,
                Call.analyze_sp w (fo * (vol (s.vreads + 1)).fo_mod_sp) isvoiced issilence,
                Call.read_fo_mod_syn (vol (s.vreads + 2)).fo_mod_syn,
                Call.synthesize_new_frame (fo * (vol (s.vreads + 2)).fo_mod_syn) isvoiced
                  issilence ap sp,
                Call.synthesize_next_sample y ]) := by
  refine ⟨?_, ?_, ?_, frames_le_length E vol st input, audio_callback_vreads E vol st input,
    ?_, ?_⟩
  · simpa using audio_callback_count E vol st input CallKind.read_fo_mod_ap
  · simpa using audio_callback_count E vol st input CallKind.read_fo_mod_sp
  · simpa using audio_callback_count E vol st input CallKind.read_fo_mod_syn
  · intro s x hr
    exact audio_callback_sample_idle E vol s x hr
  · intro s x hr
    obtain ⟨w, wd, issilence, isvoiced, fo, y, ap, sp, h, _⟩ :=
      audio_callback_sample_ready E vol s x hr
    exact ⟨w, wd, issilence, isvoiced, fo, y, ap, sp, h⟩

/-- Counterexample to C10 as stated: in the session opened as in `main` (frame period
240 samples) a first buffer of `count = 3` samples completes no frame, and none of the
three modulation globals is read during the call. -/
theorem C10_counterexample :
    ¬ (count CallKind.read_fo_mod_ap
          (audio_callback specEngine testVol mainState [1.0, 2.0, 3.0]).trace
          = [(1.0 : F64), 2.0, 3.0].length
        ∧ count CallKind.read_fo_mod_sp
          (audio_callback specEngine testVol mainState [1.0, 2.0, 3.0]).trace
          = [(1.0 : F64), 2.0, 3.0].length
        ∧ count CallKind.read_fo_mod_syn
          (audio_callback specEngine testVol mainState [1.0, 2.0, 3.0]).trace
          = [(1.0 : F64), 2.0, 3.0].length) := by
  decide

/-! ## C3 -/

section Assembler

variable {R : Type} [Mul R] [Div R] [OfScientific R] (E : Engine R) (lround : R → Int)
  (vol : Nat → ModulationState R)

/-- On the specified assembler a frame completes when the counter reaches the period. -/
theorem frame_ready_spec (st : AudioState (E.withFrameAssembler lround)) (x : R)
    (N c : Nat) (hst : st.data.frame.val = ({ period := N, counter := c } : FrameAssembler)) :
    frame_ready (E.withFrameAssembler lround) st x = decide (c + 1 = N) := by
  show (FrameAssembler.push st.data.frame.val x st.data.waveform.val).ready = _
  rw [hst]
  rfl

/-- The specified assembler after one loop iteration. -/
theorem frame_after_sample_spec (st : AudioState (E.withFrameAssembler lround)) (x : R)
    (N c : Nat) (hst : st.data.frame.val = ({ period := N, counter := c } : FrameAssembler)) :
    (audio_callback_sample (E.withFrameAssembler lround) vol st x).state.data.frame.val
      = ({ period := N, counter := if c + 1 = N then 0 else c + 1 } : FrameAssembler) := by
  have h : (audio_callback_sample (E.withFrameAssembler lround) vol st x).state.data.frame.val
      = (FrameAssembler.push st.data.frame.val x st.data.waveform.val).frame := by
    by_cases hr : frame_ready (E.withFrameAssembler lround) st x = true
    · simp only [audio_callback_sample, frame_step, hr, if_true]
      rfl
    · simp only [audio_callback_sample, frame_step, hr]
      rfl
  rw [h, hst]
  simp [FrameAssembler.push]

/-- The frame-ready results of a call on the specified assembler, from counter `c`. -/
theorem ready_flags_spec (st : AudioState (E.withFrameAssembler lround)) (input : List R)
    (N c : Nat) (hc : c < N)
    (hst : st.data.frame.val = ({ period := N, counter := c } : FrameAssembler)) :
    ready_flags (audio_callback (E.withFrameAssembler lround) vol st input).trace
      = (List.range input.length).map (fun i => decide (N ∣ c + i + 1)) := by
  induction input generalizing st c with
  | nil => simp [audio_callback, ready_flags]
  | cons x xs ih =>
    have h1 := (audio_callback_sample_io (E.withFrameAssembler lround) vol st x).2.2
    have h2 := frame_ready_spec E lround st x N c hst
    have h3 := frame_after_sample_spec E lround vol st x N c hst
    simp only [audio_callback, ready_flags_append, h1, h2, List.length_cons,
      List.range_succ_eq_map, List.map_cons, List.map_map, List.singleton_append]
    congr 1
    · have : c + 1 = N ↔ N ∣ c + 0 + 1 := by
        constructor
        · intro h
          simp [h]
        · intro h
          have := Nat.le_of_dvd (by omega) h
          omega
      simp only [this]
    · by_cases hN : c + 1 = N
      · rw [if_pos hN] at h3
        rw [ih _ 0 (by omega) h3]
        apply List.map_congr_left
        intro i _
        simp only [Function.comp, Nat.succ_eq_add_one]
        have : c + (i + 1) + 1 = N + (0 + i + 1) := by omega
        rw [this]
        exact decide_eq_decide.mpr (Nat.dvd_add_right (dvd_refl N)).symm
      · rw [if_neg hN] at h3
        rw [ih _ (c + 1) (by omega) h3]
        apply List.map_congr_left
        intro i _
        simp only [Function.comp, Nat.succ_eq_add_one]
        have : c + (i + 1) + 1 = c + 1 + i + 1 := by omega
        rw [this]

/-- The number of frames completed by a call on the specified assembler. -/
theorem frames_spec (st : AudioState (E.withFrameAssembler lround)) (input : List R)
    (N c : Nat) (hc : c < N)
    (hst : st.data.frame.val = ({ period := N, counter := c } : FrameAssembler)) :
    frames (audio_callback (E.withFrameAssembler lround) vol st input).trace
      = (c + input.length) / N := by
  induction input generalizing st c with
  | nil =>
    simp [audio_callback, frames, ready_flags, Nat.div_eq_of_lt hc]
  | cons x xs ih =>
    have h1 := (audio_callback_sample_io (E.withFrameAssembler lround) vol st x).2.2
    have h2 := frame_ready_spec E lround st x N c hst
    have h3 := frame_after_sample_spec E lround vol st x N c hst
    simp only [audio_callback, frames_append, List.length_cons]
    by_cases hN : c + 1 = N
    · rw [if_pos hN] at h3
      rw [ih _ 0 (by omega) h3]
      simp only [frames, h1, h2, hN, decide_True, List.count_singleton_self]
      have : c + (xs.length + 1) = N + xs.length := by omega
      rw [this, Nat.add_div_left _ (by omega)]
      simp
      omega
    · rw [if_neg hN] at h3
      rw [ih _ (c + 1) (by omega) h3]
      simp only [frames, h1, h2, hN, decide_False]
      have : c + (xs.length + 1) = c + 1 + xs.length := by omega
      rw [this]
      simp

end Assembler

/-- C3: on an engine whose frame assembler signals frame-ready on every `N`-th push
(`N > 0`, counter at zero at stream start), a stream of `L` samples fed to
`audio_callback` in any chunking runs exactly `L / N` analysis + synthesis-setup cycles,
one at each of the samples `N`, `2N`, `3N`, …: the frame-ready result of the `i`-th push
(counted from 1) is true exactly when `N` divides `i`; each of the five engine calls of a
cycle occurs `L / N` times, at most once per sample; exactly `L` samples are pulled;
and the whole run equals the single call on the concatenated stream.  The session opened
by `audio_initializer(buffer_size, fs)` starts with the counter at zero and
`N = round(5.0 * fs / 1000)`, which is 240 for the configured 48000 Hz. -/
theorem C3_one_cycle_per_frame_period {R : Type} [Mul R] [Div R] [OfScientific R]
    (E : Engine R) (lround : R → Int) (vol : Nat → ModulationState R)
    (st : AudioState (E.withFrameAssembler lround)) (N : Nat) (hN : 0 < N)
    (hst : st.data.frame.val = ({ period := N, counter := 0 } : FrameAssembler))
    (chunks : List (List R)) :
    ready_flags (audio_process (E.withFrameAssembler lround) vol st chunks).trace
        = (List.range chunks.flatten.length).map (fun i => decide (N ∣ i + 1))
      ∧ (∀ k ∈ [CallKind.analyze_silence, CallKind.analyze_fo, CallKind.analyze_ap,
            CallKind.analyze_sp, CallKind.synthesize_new_frame],
          count k (audio_process (E.withFrameAssembler lround) vol st chunks).trace
            = chunks.flatten.length / N)
      ∧ (∀ (s : AudioState (E.withFrameAssembler lround)) (x : R) (k : CallKind),
          count k (audio_callback_sample (E.withFrameAssembler lround) vol s x).trace ≤ 1)
      ∧ count CallKind.synthesize_next_sample
          (audio_process (E.withFrameAssembler lround) vol st chunks).trace
            = chunks.flatten.length
      ∧ audio_process (E.withFrameAssembler lround) vol st chunks
          = audio_callback (E.withFrameAssembler lround) vol st chunks.flatten
      ∧ (∀ (h : Heap) (buffer_size : Nat) (fs : R),
          (audio_initializer (E.withFrameAssembler lround) h buffer_size fs).2.val.frame.val
            = ({ period := (lround (5.0 * fs / 1000.0)).toNat, counter := 0 } : FrameAssembler))
      ∧ (F64.lround ((5.0 : F64) * 48000.0 / 1000.0)).toNat = 240 := by
  have hf := ready_flags_spec E lround vol st chunks.flatten N 0 hN hst
  have hn := frames_spec E lround vol st chunks.flatten N 0 hN hst
  rw [audio_process_eq]
  refine ⟨?_, ?_, ?_, ?_, rfl, fun _ _ _ => rfl, by decide⟩
  · simpa using hf
  · intro k hk
    have hc := audio_callback_count (E.withFrameAssembler lround) vol st chunks.flatten k
    rw [hn] at hc
    simp only [List.mem_cons, List.mem_singleton, List.not_mem_nil, or_false] at hk
    rcases hk with rfl | rfl | rfl | rfl | rfl <;> simpa using hc
  · intro s x k
    rw [audio_callback_sample_count]
    split
    · exact le_refl 1
    · split <;> omega
  · simpa using audio_callback_count (E.withFrameAssembler lround) vol st chunks.flatten
      CallKind.synthesize_next_sample

/-- Witness of C3: the session opened as in `main` (`N = 240`), fed 480 samples as one
buffer of 100 and one of 380. -/
theorem C3_one_cycle_per_frame_period_witness :
    (0 < 240 ∧ FrameAssembler.create F64.lround 48000.0 5.0 fftsize
        = ({ period := 240, counter := 0 } : FrameAssembler))
    ∧ ready_flags (audio_process specEngine testVol mainState
        [List.replicate 100 1.0, List.replicate 380 1.0]).trace
        = (List.range [List.replicate 100 (1.0 : F64), List.replicate 380 1.0].flatten.length).map
            (fun i => decide (240 ∣ i + 1))
      ∧ (∀ k ∈ [CallKind.analyze_silence, CallKind.analyze_fo, CallKind.analyze_ap,
            CallKind.analyze_sp, CallKind.synthesize_new_frame],
          count k (audio_process specEngine testVol mainState
              [List.replicate 100 1.0, List.replicate 380 1.0]).trace
            = [List.replicate 100 (1.0 : F64), List.replicate 380 1.0].flatten.length / 240)
      ∧ (∀ (s : AudioState specEngine) (x : F64) (k : CallKind),
          count k (audio_callback_sample specEngine testVol s x).trace ≤ 1)
      ∧ count CallKind.synthesize_next_sample
          (audio_process specEngine testVol mainState
            [List.replicate 100 1.0, List.replicate 380 1.0]).trace
            = [List.replicate 100 (1.0 : F64), List.replicate 380 1.0].flatten.length
      ∧ audio_process specEngine testVol mainState
            [List.replicate 100 1.0, List.replicate 380 1.0]
          = audio_callback specEngine testVol mainState
            [List.replicate 100 (1.0 : F64), List.replicate 380 1.0].flatten
      ∧ (∀ (h : Heap) (buffer_size : Nat) (fs : F64),
          (audio_initializer specEngine h buffer_size fs).2.val.frame.val
            = ({ period := (F64.lround (5.0 * fs / 1000.0)).toNat, counter := 0 }
                : FrameAssembler))
      ∧ (F64.lround ((5.0 : F64) * 48000.0 / 1000.0)).toNat = 240 :=
  ⟨⟨by decide, by decide⟩,
   C3_one_cycle_per_frame_period testEngine F64.lround testVol mainState 240 (by decide)
    (by show FrameAssembler.create F64.lround 48000.0 5.0 fftsize = _; decide)
    [List.replicate 100 1.0, List.replicate 380 1.0]⟩

/-! ## C4 -/

section Windows

variable {R : Type} [Mul R] (E : Engine R) (vol : Nat → ModulationState R)

/-- One loop iteration keeps the size of the waveform buffer, and the windows it hands to
`analyze_fo` are the views at offsets 1 and 0 of that buffer. -/
theorem audio_callback_sample_windows (st : AudioState E) (x : R) :
    (audio_callback_sample E vol st x).state.data.waveform.val.length
        = st.data.waveform.val.length
      ∧ ∀ (w wd : Window R) (fo : R),
          Call.analyze_fo w wd fo ∈ (audio_callback_sample E vol st x).trace →
          wd.buf = w.buf ∧ w.off = 1 ∧ wd.off = 0
            ∧ w.buf.length = st.data.waveform.val.length := by
  have hlen := E.next_audio_frame_length st.data.frame.val x st.data.waveform.val
  by_cases hr : frame_ready E st x = true
  · constructor
    · simp only [audio_callback_sample, frame_step, hr, if_true]
      exact hlen
    · intro w wd fo hmem
      simp only [audio_callback_sample, frame_step, hr, if_true, analysis_cycle_trace] at hmem
      simp only [List.cons_append, List.nil_append, List.mem_cons, List.mem_singleton,
        List.not_mem_nil, or_false, false_or, reduceCtorEq, Call.analyze_fo.injEq] at hmem
      obtain ⟨hw, hwd, _⟩ := hmem
      subst hw
      subst hwd
      exact ⟨rfl, rfl, rfl, hlen⟩
  · constructor
    · simp only [audio_callback_sample, frame_step, hr]
      exact hlen
    · intro w wd fo hmem
      simp [audio_callback_sample, frame_step, hr] at hmem

/-- A loop iteration that completes a frame hands the two views to `analyze_fo`. -/
theorem analyze_fo_mem_sample (st : AudioState E) (x : R)
    (hr : frame_ready E st x = true) :
    Call.analyze_fo
        ⟨(E.next_audio_frame st.data.frame.val x st.data.waveform.val).waveform, 1⟩
        ⟨(E.next_audio_frame st.data.frame.val x st.data.waveform.val).waveform, 0⟩
        (E.analyze_fo
          (E.analyze_silence st.data.vocoder.val
            ⟨(E.next_audio_frame st.data.frame.val x st.data.waveform.val).waveform, 1⟩
            E.REIM_SILENCE_THRESHOLD).vocoder
          st.data.fo_context.val
          ⟨(E.next_audio_frame st.data.frame.val x st.data.waveform.val).waveform, 1⟩
          ⟨(E.next_audio_frame st.data.frame.val x st.data.waveform.val).waveform, 0⟩).fo
      ∈ (audio_callback_sample E vol st x).trace := by
  simp only [audio_callback_sample, frame_step, hr, if_true, analysis_cycle_trace]
  simp [after_next_audio_frame]

/-- A whole call keeps the size of the waveform buffer, and every pair of windows handed to
`analyze_fo` consists of the views at offsets 1 and 0 of a buffer of that size. -/
theorem audio_callback_windows (st : AudioState E) (input : List R) :
    (audio_callback E vol st input).state.data.waveform.val.length
        = st.data.waveform.val.length
      ∧ ∀ (w wd : Window R) (fo : R),
          Call.analyze_fo w wd fo ∈ (audio_callback E vol st input).trace →
          wd.buf = w.buf ∧ w.off = 1 ∧ wd.off = 0
            ∧ w.buf.length = st.data.waveform.val.length := by
  induction input generalizing st with
  | nil => simp [audio_callback]
  | cons x xs ih =>
    have h1 := audio_callback_sample_windows E vol st x
    have h2 := ih (audio_callback_sample E vol st x).state
    constructor
    · simp only [audio_callback]
      rw [h2.1, h1.1]
    · intro w wd fo hmem
      simp only [audio_callback, List.mem_append] at hmem
      rcases hmem with hmem | hmem
      · exact h1.2 w wd fo hmem
      · have := h2.2 w wd fo hmem
        rw [h1.1] at this
        exact this

end Windows

/-- C4: in a session opened by `audio_initializer`, at every frame-ready event in any
chunking, the "current" and "delayed" windows handed to `analyze_fo` are the views at
offsets 1 and 0 of one and the same buffer of `fftsize + 1` samples: all `fftsize` samples
of either window lie inside the buffer, `current[i] = delayed[i + 1]` for every
`i < fftsize - 1`, and the two windows have exactly `fftsize - 1` buffer positions in
common. -/
theorem C4_windows_one_sample_shift {R : Type} [Mul R] [OfScientific R] (E : Engine R)
    (h : Heap) (buffer_size : Nat) (fs : R) (vol : Nat → ModulationState R)
    (chunks : List (List R)) (w wd : Window R) (fo : R)
    (hmem : Call.analyze_fo w wd fo ∈
      (audio_process E vol
        { data := (audio_initializer E h buffer_size fs).2.val, vreads := 0 } chunks).trace) :
    wd.buf = w.buf ∧ w.off = 1 ∧ wd.off = 0 ∧ w.buf.length = fftsize + 1
      ∧ w.off + fftsize ≤ w.buf.length ∧ wd.off + fftsize ≤ wd.buf.length
      ∧ (∀ i, i < fftsize → (w.get i).isSome = true ∧ (wd.get i).isSome = true)
      ∧ (∀ i, i < fftsize - 1 → w.get i = wd.get (i + 1))
      ∧ (Finset.Ico w.off (w.off + fftsize) ∩ Finset.Ico wd.off (wd.off + fftsize)).card
          = fftsize - 1 := by
  rw [audio_process_eq] at hmem
  have hw := (audio_callback_windows E vol _ chunks.flatten).2 w wd fo hmem
  have hinit : (audio_initializer E h buffer_size fs).2.val.waveform.val.length = fftsize + 1 :=
    E.allocate_vector_length (fftsize + 1)
  obtain ⟨hbuf, hoff, hoffd, hlen⟩ := hw
  rw [hinit] at hlen
  refine ⟨hbuf, hoff, hoffd, hlen, ?_, ?_, ?_, ?_, ?_⟩
  · omega
  · rw [hbuf]
    omega
  · intro i hi
    simp only [Window.get, hbuf, hoff, hoffd]
    constructor
    · rw [List.getElem?_eq_getElem (by omega)]
      rfl
    · rw [List.getElem?_eq_getElem (by omega)]
      rfl
  · intro i _
    simp only [Window.get, hbuf, hoff, hoffd]
    congr 1
    omega
  · rw [hoff, hoffd]
    have : Finset.Ico 1 (1 + fftsize) ∩ Finset.Ico 0 (0 + fftsize) = Finset.Ico 1 fftsize := by
      ext i
      simp only [Finset.mem_inter, Finset.mem_Ico]
      omega
    rw [this, Nat.card_Ico]

/-- Membership of the `analyze_fo` event used by the witness of C4. -/
theorem testWaveform_event :
    Call.analyze_fo ⟨testWaveform, 1⟩ ⟨testWaveform, 0⟩
        (testEngine.analyze_fo () () ⟨testWaveform, 1⟩ ⟨testWaveform, 0⟩).fo ∈
      (audio_process testEngine testVol
        { data := (audio_initializer testEngine Heap.empty 4096 48000.0).2.val, vreads := 0 }
        [[1.0], [2.0]]).trace := by
  have h := analyze_fo_mem_sample testEngine testVol testStateAfterOne 2.0 (by decide)
  rw [audio_process_eq]
  have e : ([[1.0], [2.0]] : List (List F64)).flatten = [1.0] ++ [2.0] := rfl
  rw [e, audio_callback_append]
  apply List.mem_append_right
  simp only [audio_callback, List.append_nil]
  exact h

/-- Witness of C4: the session opened as in `main` on the test double, fed the buffers
`[1.0]` and `[2.0]`, completes a frame on the second sample; `analyze_fo` receives the
views at offsets 1 and 0 of the waveform buffer `testWaveform`. -/
theorem C4_windows_one_sample_shift_witness :
    Call.analyze_fo ⟨testWaveform, 1⟩ ⟨testWaveform, 0⟩
        (testEngine.analyze_fo () () ⟨testWaveform, 1⟩ ⟨testWaveform, 0⟩).fo ∈
      (audio_process testEngine testVol
        { data := (audio_initializer testEngine Heap.empty 4096 48000.0).2.val, vreads := 0 }
        [[1.0], [2.0]]).trace
    ∧ ((⟨testWaveform, 0⟩ : Window F64).buf = (⟨testWaveform, 1⟩ : Window F64).buf
      ∧ (⟨testWaveform, 1⟩ : Window F64).off = 1
      ∧ (⟨testWaveform, 0⟩ : Window F64).off = 0
      ∧ (⟨testWaveform, 1⟩ : Window F64).buf.length = fftsize + 1
      ∧ (⟨testWaveform, 1⟩ : Window F64).off + fftsize
          ≤ (⟨testWaveform, 1⟩ : Window F64).buf.length
      ∧ (⟨testWaveform, 0⟩ : Window F64).off + fftsize
          ≤ (⟨testWaveform, 0⟩ : Window F64).buf.length
      ∧ (∀ i, i < fftsize →
          ((⟨testWaveform, 1⟩ : Window F64).get i).isSome = true
          ∧ ((⟨testWaveform, 0⟩ : Window F64).get i).isSome = true)
      ∧ (∀ i, i < fftsize - 1 →
          (⟨testWaveform, 1⟩ : Window F64).get i = (⟨testWaveform, 0⟩ : Window F64).get (i + 1))
      ∧ (Finset.Ico (⟨testWaveform, 1⟩ : Window F64).off
            ((⟨testWaveform, 1⟩ : Window F64).off + fftsize)
          ∩ Finset.Ico (⟨testWaveform, 0⟩ : Window F64).off
            ((⟨testWaveform, 0⟩ : Window F64).off + fftsize)).card
          = fftsize - 1) :=
  ⟨testWaveform_event,
   C4_windows_one_sample_shift testEngine Heap.empty 4096 48000.0 testVol [[1.0], [2.0]]
    ⟨testWaveform, 1⟩ ⟨testWaveform, 0⟩
    (testEngine.analyze_fo () () ⟨testWaveform, 1⟩ ⟨testWaveform, 0⟩).fo testWaveform_event⟩

/-! ## Session lifecycle: C6, C7, C8 -/

section Lifecycle

variable {R : Type} [OfScientific R] (E : Engine R)

/-- What `audio_initializer` does to the heap: ten fresh allocations, in this order. -/
theorem audio_initializer_heap (h : Heap) (buffer_size : Nat) (fs : R) :
    (audio_initializer E h buffer_size fs).1 =
      { next := h.next + 10,
        live := [ (Resource.vector, h.next + 9), (Resource.vector, h.next + 8),
                  (Resource.vector, h.next + 7), (Resource.synthesis_context, h.next + 6),
                  (Resource.ap_context, h.next + 5), (Resource.sp_context, h.next + 4),
                  (Resource.fo_context, h.next + 3), (Resource.vocoder_context, h.next + 2),
                  (Resource.audio_frame, h.next + 1), (Resource.audio_data, h.next) ] ++ h.live,
        log := h.log ++ [ MemEvent.acquire Resource.audio_data h.next,
                  MemEvent.acquire Resource.audio_frame (h.next + 1),
                  MemEvent.acquire Resource.vocoder_context (h.next + 2),
                  MemEvent.acquire Resource.fo_context (h.next + 3),
                  MemEvent.acquire Resource.sp_context (h.next + 4),
                  MemEvent.acquire Resource.ap_context (h.next + 5),
                  MemEvent.acquire Resource.synthesis_context (h.next + 6),
                  MemEvent.acquire Resource.vector (h.next + 7),
                  MemEvent.acquire Resource.vector (h.next + 8),
                  MemEvent.acquire Resource.vector (h.next + 9) ] }
      ∧ session_resources (audio_initializer E h buffer_size fs).2 =
          [ (Resource.audio_data, h.next), (Resource.audio_frame, h.next + 1),
            (Resource.vocoder_context, h.next + 2), (Resource.fo_context, h.next + 3),
            (Resource.sp_context, h.next + 4), (Resource.ap_context, h.next + 5),
            (Resource.synthesis_context, h.next + 6), (Resource.vector, h.next + 7),
            (Resource.vector, h.next + 8), (Resource.vector, h.next + 9) ] := by
  constructor
  · simp [audio_initializer, Heap.alloc, List.append_assoc]
  · simp [audio_initializer, Heap.alloc, session_resources]

/-- Closing the session just opened succeeds, releases the ten allocations in the order of
the source, and nulls the handle. -/
theorem audio_terminator_after_initializer (h : Heap) (buffer_size : Nat) (fs : R) :
    audio_terminator (audio_initializer E h buffer_size fs).1
        (some (audio_initializer E h buffer_size fs).2) =
      Except.ok
        ({ next := h.next + 10,
           live := h.live,
           log := (audio_initializer E h buffer_size fs).1.log ++
             [ MemEvent.release Resource.audio_frame (h.next + 1),
               MemEvent.release Resource.vocoder_context (h.next + 2),
               MemEvent.release Resource.fo_context (h.next + 3),
               MemEvent.release Resource.ap_context (h.next + 5),
               MemEvent.release Resource.sp_context (h.next + 4),
               MemEvent.release Resource.synthesis_context (h.next + 6),
               MemEvent.release Resource.vector (h.next + 7),
               MemEvent.release Resource.vector (h.next + 8),
               MemEvent.release Resource.vector (h.next + 9),
               MemEvent.release Resource.audio_data h.next ] }, none) := by
  rw [(audio_initializer_heap E h buffer_size fs).1]
  simp [audio_terminator, audio_initializer, Heap.alloc, Heap.free, bind, Except.bind, pure,
    Except.pure, List.erase_cons]

/-- Events of the session just opened and closed. -/
theorem session_events (h : Heap) (buffer_size : Nat) (fs : R) :
    open_events E h buffer_size fs =
        [ MemEvent.acquire Resource.audio_data h.next,
          MemEvent.acquire Resource.audio_frame (h.next + 1),
          MemEvent.acquire Resource.vocoder_context (h.next + 2),
          MemEvent.acquire Resource.fo_context (h.next + 3),
          MemEvent.acquire Resource.sp_context (h.next + 4),
          MemEvent.acquire Resource.ap_context (h.next + 5),
          MemEvent.acquire Resource.synthesis_context (h.next + 6),
          MemEvent.acquire Resource.vector (h.next + 7),
          MemEvent.acquire Resource.vector (h.next + 8),
          MemEvent.acquire Resource.vector (h.next + 9) ]
      ∧ close_events (audio_initializer E h buffer_size fs).1
          (some (audio_initializer E h buffer_size fs).2) =
        [ MemEvent.release Resource.audio_frame (h.next + 1),
          MemEvent.release Resource.vocoder_context (h.next + 2),
          MemEvent.release Resource.fo_context (h.next + 3),
          MemEvent.release Resource.ap_context (h.next + 5),
          MemEvent.release Resource.sp_context (h.next + 4),
          MemEvent.release Resource.synthesis_context (h.next + 6),
          MemEvent.release Resource.vector (h.next + 7),
          MemEvent.release Resource.vector (h.next + 8),
          MemEvent.release Resource.vector (h.next + 9),
          MemEvent.release Resource.audio_data h.next ] := by
  constructor
  · rw [open_events, (audio_initializer_heap E h buffer_size fs).1]
    simp
  · rw [close_events, audio_terminator_after_initializer]
    simp

end Lifecycle

/-- A list of ten elements released in the order of the source is a rearrangement of the
list in acquisition order. -/
theorem perm_release_order {α : Type} (x0 x1 x2 x3 x4 x5 x6 x7 x8 x9 : α) :
    [x1, x2, x3, x5, x4, x6, x7, x8, x9, x0].Perm [x0, x1, x2, x3, x4, x5, x6, x7, x8, x9] := by
  have h1 : [x1, x2, x3, x5, x4, x6, x7, x8, x9, x0]
      = [x1, x2, x3, x5, x4, x6, x7, x8, x9] ++ [x0] := rfl
  rw [h1]
  refine List.perm_append_comm.trans ?_
  simp only [List.singleton_append]
  refine List.Perm.cons _ (List.Perm.cons _ (List.Perm.cons _ (List.Perm.cons _ ?_)))
  exact List.Perm.swap _ _ _

/-- C8: `audio_initializer` followed immediately by `audio_terminator` leaks nothing and
releases nothing twice.  On every heap, closing the session just opened succeeds; the
allocations it releases are exactly the ten acquired by the open (the record, the audio
frame, the vocoder context, the fo, sp, ap and synthesis contexts, the waveform, ap and sp
vectors), each exactly once; the live allocations afterwards are those before the open;
and the handle is NULL. -/
theorem C8_open_close_releases_everything_once {R : Type} [OfScientific R] (E : Engine R)
    (h : Heap) (buffer_size : Nat) (fs : R) :
    (∃ h2 : Heap,
        audio_terminator (audio_initializer E h buffer_size fs).1
          (some (audio_initializer E h buffer_size fs).2) = Except.ok (h2, none)
        ∧ h2.live = h.live)
      ∧ acquired (open_events E h buffer_size fs)
          = session_resources (audio_initializer E h buffer_size fs).2
      ∧ (released (close_events (audio_initializer E h buffer_size fs).1
            (some (audio_initializer E h buffer_size fs).2))).Perm
          (acquired (open_events E h buffer_size fs))
      ∧ (released (close_events (audio_initializer E h buffer_size fs).1
            (some (audio_initializer E h buffer_size fs).2))).Nodup
      ∧ (released (close_events (audio_initializer E h buffer_size fs).1
            (some (audio_initializer E h buffer_size fs).2))).length = 10
      ∧ released (open_events E h buffer_size fs) = []
      ∧ acquired (close_events (audio_initializer E h buffer_size fs).1
            (some (audio_initializer E h buffer_size fs).2)) = [] := by
  have he := session_events E h buffer_size fs
  have hr := (audio_initializer_heap E h buffer_size fs).2
  refine ⟨⟨_, audio_terminator_after_initializer E h buffer_size fs, rfl⟩, ?_, ?_, ?_, ?_, ?_,
    ?_⟩
  · rw [he.1, hr]
    simp [acquired]
  · rw [he.1, he.2]
    simp only [acquired, released, List.filterMap_cons, List.filterMap_nil]
    exact perm_release_order _ _ _ _ _ _ _ _ _ _
  · rw [he.2]
    simp [released]
  · rw [he.2]
    simp [released]
  · rw [he.1]
    simp [released]
  · rw [he.2]
    simp [acquired]

/-- C6 (as amended): `audio_terminator` releases every allocation of the session, but not
in reverse order of acquisition.  `audio_initializer` acquires the record, the audio frame,
the vocoder context, the fo, sp, ap and synthesis contexts and the waveform, ap and sp
vectors, in this order; `audio_terminator` releases the nine members in the order in which
`audio_data_t` declares them (frame, vocoder, fo context, ap context, sp context,
synthesis, waveform, ap, sp) and the record, acquired first, last. -/
theorem C6_release_order_of_terminator {R : Type} [OfScientific R] (E : Engine R)
    (h : Heap) (buffer_size : Nat) (fs : R) :
    acquired (open_events E h buffer_size fs) =
        [ (Resource.audio_data, (audio_initializer E h buffer_size fs).2.addr),
          (Resource.audio_frame, (audio_initializer E h buffer_size fs).2.val.frame.addr),
          (Resource.vocoder_context, (audio_initializer E h buffer_size fs).2.val.vocoder.addr),
          (Resource.fo_context, (audio_initializer E h buffer_size fs).2.val.fo_context.addr),
          (Resource.sp_context, (audio_initializer E h buffer_size fs).2.val.sp_context.addr),
          (Resource.ap_context, (audio_initializer E h buffer_size fs).2.val.ap_context.addr),
          (Resource.synthesis_context,
            (audio_initializer E h buffer_size fs).2.val.synthesis.addr),
          (Resource.vector, (audio_initializer E h buffer_size fs).2.val.waveform.addr),
          (Resource.vector, (audio_initializer E h buffer_size fs).2.val.ap.addr),
          (Resource.vector, (audio_initializer E h buffer_size fs).2.val.sp.addr) ]
      ∧ released (close_events (audio_initializer E h buffer_size fs).1
            (some (audio_initializer E h buffer_size fs).2)) =
        [ (Resource.audio_frame, (audio_initializer E h buffer_size fs).2.val.frame.addr),
          (Resource.vocoder_context, (audio_initializer E h buffer_size fs).2.val.vocoder.addr),
          (Resource.fo_context, (audio_initializer E h buffer_size fs).2.val.fo_context.addr),
          (Resource.ap_context, (audio_initializer E h buffer_size fs).2.val.ap_context.addr),
          (Resource.sp_context, (audio_initializer E h buffer_size fs).2.val.sp_context.addr),
          (Resource.synthesis_context,
            (audio_initializer E h buffer_size fs).2.val.synthesis.addr),
          (Resource.vector, (audio_initializer E h buffer_size fs).2.val.waveform.addr),
          (Resource.vector, (audio_initializer E h buffer_size fs).2.val.ap.addr),
          (Resource.vector, (audio_initializer E h buffer_size fs).2.val.sp.addr),
          (Resource.audio_data, (audio_initializer E h buffer_size fs).2.addr) ]
      ∧ (acquired (open_events E h buffer_size fs)).head?
          = some (Resource.audio_data, (audio_initializer E h buffer_size fs).2.addr)
      ∧ (released (close_events (audio_initializer E h buffer_size fs).1
            (some (audio_initializer E h buffer_size fs).2))).getLast?
          = some (Resource.audio_data, (audio_initializer E h buffer_size fs).2.addr) := by
  have he := session_events E h buffer_size fs
  rw [he.1, he.2]
  simp [acquired, released, audio_initializer, Heap.alloc]

/-- Counterexample to C6 as stated: in the session opened as in `main` the release order
is not the reverse of the acquisition order (the audio frame is acquired before the
vocoder context and is also released before it). -/
theorem C6_counterexample :
    ¬ reverse_order
        (acquired (open_events testEngine Heap.empty 4096 48000.0))
        (released (close_events (audio_initializer testEngine Heap.empty 4096 48000.0).1
          (some (audio_initializer testEngine Heap.empty 4096 48000.0).2))) := by
  decide

/-- A successful sequence of two steps in the `Except` monad: both steps succeeded. -/
theorem bind_eq_ok {ε α β : Type} (x : Except ε α) (f : α → Except ε β) (b : β)
    (h : x >>= f = Except.ok b) : ∃ a, x = Except.ok a ∧ f a = Except.ok b := by
  cases x with
  | error e => simp [bind, Except.bind] at h
  | ok a => exact ⟨a, rfl, h⟩

/-- A close that returns leaves the handle NULL. -/
theorem audio_terminator_handle {R : Type} {E : Engine R} (h h2 : Heap)
    (u u2 : Option (Owned (audio_data_t E)))
    (hclose : audio_terminator h u = Except.ok (h2, u2)) : u2 = none := by
  cases u with
  | none => simp [audio_terminator] at hclose
  | some data =>
    simp only [audio_terminator] at hclose
    split at hclose
    · cases hclose
    · obtain ⟨_, _, hclose⟩ := bind_eq_ok _ _ _ hclose
      obtain ⟨_, _, hclose⟩ := bind_eq_ok _ _ _ hclose
      obtain ⟨_, _, hclose⟩ := bind_eq_ok _ _ _ hclose
      obtain ⟨_, _, hclose⟩ := bind_eq_ok _ _ _ hclose
      obtain ⟨_, _, hclose⟩ := bind_eq_ok _ _ _ hclose
      obtain ⟨_, _, hclose⟩ := bind_eq_ok _ _ _ hclose
      obtain ⟨_, _, hclose⟩ := bind_eq_ok _ _ _ hclose
      obtain ⟨_, _, hclose⟩ := bind_eq_ok _ _ _ hclose
      obtain ⟨_, _, hclose⟩ := bind_eq_ok _ _ _ hclose
      obtain ⟨_, _, hclose⟩ := bind_eq_ok _ _ _ hclose
      simp only [pure, Except.pure, Except.ok.injEq, Prod.mk.injEq] at hclose
      exact hclose.2.symm

/-- C7 (as amended): `audio_terminator` has no guard against a handle that has already
been closed.  A close that returns leaves the handle NULL, and a second close on that
handle dereferences the NULL handle: it is a fault, on every heap, not a rejection and
not a no-op, and it releases nothing. -/
theorem C7_second_close_faults {R : Type} {E : Engine R} (h h2 : Heap)
    (u u2 : Option (Owned (audio_data_t E)))
    (hclose : audio_terminator h u = Except.ok (h2, u2)) :
    u2 = none
      ∧ (∀ h3 : Heap, audio_terminator h3 u2 = Except.error Fault.null_dereference)
      ∧ (∀ h3 : Heap, close_events h3 u2 = []) := by
  have hu := audio_terminator_handle h h2 u u2 hclose
  subst hu
  exact ⟨rfl, fun _ => rfl, fun _ => rfl⟩

/-- Witness of C7: the session opened as in `main` is closed once, successfully. -/
theorem C7_second_close_faults_witness :
    audio_terminator (audio_initializer testEngine Heap.empty 4096 48000.0).1
        (some (audio_initializer testEngine Heap.empty 4096 48000.0).2)
      = Except.ok
          ({ next := 11, live := [],
             log := (audio_initializer testEngine Heap.empty 4096 48000.0).1.log ++
               [ MemEvent.release Resource.audio_frame 2,
                 MemEvent.release Resource.vocoder_context 3,
                 MemEvent.release Resource.fo_context 4,
                 MemEvent.release Resource.ap_context 6,
                 MemEvent.release Resource.sp_context 5,
                 MemEvent.release Resource.synthesis_context 7,
                 MemEvent.release Resource.vector 8,
                 MemEvent.release Resource.vector 9,
                 MemEvent.release Resource.vector 10,
                 MemEvent.release Resource.audio_data 1 ] }, none)
    ∧ ((none : Option (Owned (audio_data_t testEngine))) = none
      ∧ (∀ h3 : Heap, audio_terminator h3 (none : Option (Owned (audio_data_t testEngine)))
          = Except.error Fault.null_dereference)
      ∧ (∀ h3 : Heap,
          close_events h3 (none : Option (Owned (audio_data_t testEngine))) = [])) :=
  ⟨audio_terminator_after_initializer testEngine Heap.empty 4096 48000.0,
   C7_second_close_faults _ _ _ _
     (audio_terminator_after_initializer testEngine Heap.empty 4096 48000.0)⟩

/-- Counterexample to C7 as stated: the session opened as in `main` is closed once; the
second `audio_terminator` on the handle left by the first is a NULL dereference. -/
theorem C7_counterexample :
    ∃ (h2 : Heap) (u2 : Option (Owned (audio_data_t testEngine))),
      audio_terminator (audio_initializer testEngine Heap.empty 4096 48000.0).1
          (some (audio_initializer testEngine Heap.empty 4096 48000.0).2) = Except.ok (h2, u2)
      ∧ audio_terminator h2 u2 = Except.error Fault.null_dereference
      ∧ ¬ ∃ r, audio_terminator h2 u2 = Except.ok r :=
  ⟨_, none, audio_terminator_after_initializer testEngine Heap.empty 4096 48000.0, rfl,
    fun ⟨_, hr⟩ => by cases hr⟩

/-! ## The control thread: C5, C9 -/

section Control

variable {R : Type} [Add R] [Sub R] [OfScientific R]

/-- A key other than the quit key leaves `keep_running` as it is. -/
theorem key_switch_keep_running (g : Globals R) (ch : Int) (hch : ch ≠ cchar 'x') :
    (key_switch g ch).keep_running = g.keep_running := by
  unfold key_switch
  split_ifs <;> rfl

/-- The quit key leaves the three scalars as they are and clears `keep_running`. -/
theorem key_switch_quit (g : Globals R) :
    key_switch g (cchar 'x') = { g with keep_running := 0 } := by
  unfold key_switch
  have e : cchar 'x' = 120 := rfl
  simp [e, cchar]

/-- Effect of one key on the three scalars. -/
theorem key_switch_mods (g : Globals R) (ch : Int) :
    (key_switch g ch).fo_mod_ap = apply_keys (cchar 'q') (cchar 'a') g.fo_mod_ap [ch]
      ∧ (key_switch g ch).fo_mod_sp = apply_keys (cchar 'w') (cchar 's') g.fo_mod_sp [ch]
      ∧ (key_switch g ch).fo_mod_syn = apply_keys (cchar 'e') (cchar 'd') g.fo_mod_syn [ch] := by
  have eq : cchar 'q' = 113 := rfl
  have ea : cchar 'a' = 97 := rfl
  have ew : cchar 'w' = 119 := rfl
  have es : cchar 's' = 115 := rfl
  have ee : cchar 'e' = 101 := rfl
  have ed : cchar 'd' = 100 := rfl
  have ex : cchar 'x' = 120 := rfl
  simp only [key_switch, apply_keys, List.foldl_cons, List.foldl_nil, eq, ea, ew, es, ee, ed, ex]
  refine ⟨?_, ?_, ?_⟩ <;> split_ifs <;> first | rfl | omega

/-- `EOF` is none of the keys. -/
theorem apply_keys_cons_EOF (L : LibC) (inc dec : Int) (hinc : 0 ≤ inc) (hdec : 0 ≤ dec)
    (v : R) (script : List Int) :
    apply_keys inc dec v (L.EOF :: script) = apply_keys inc dec v script := by
  have h := L.EOF_neg
  have h1 : L.EOF ≠ inc := by omega
  have h2 : L.EOF ≠ dec := by omega
  simp [apply_keys, h1, h2]

/-- The polling loop on a script without the quit key: every `getchar` result is consumed,
the loop is still running afterwards, and each scalar has been stepped by its own keys. -/
theorem input_loop_no_quit (L : LibC) (g : Globals R) (script : List Int)
    (hrun : g.keep_running ≠ 0) (hquit : cchar 'x' ∉ script) :
    (input_loop L g script).globals.fo_mod_ap
        = apply_keys (cchar 'q') (cchar 'a') g.fo_mod_ap script
      ∧ (input_loop L g script).globals.fo_mod_sp
        = apply_keys (cchar 'w') (cchar 's') g.fo_mod_sp script
      ∧ (input_loop L g script).globals.fo_mod_syn
        = apply_keys (cchar 'e') (cchar 'd') g.fo_mod_syn script
      ∧ (input_loop L g script).globals.keep_running = g.keep_running
      ∧ (input_loop L g script).stdin = []
      ∧ (input_loop L g script).exited = false := by
  induction script generalizing g with
  | nil => simp [input_loop, apply_keys, hrun]
  | cons ch rest ih =>
    have hx : ch ≠ cchar 'x' := fun h => hquit (h ▸ List.mem_cons_self _ _)
    have hrest : cchar 'x' ∉ rest := fun h => hquit (List.mem_cons_of_mem _ h)
    by_cases hE : ch = L.EOF
    · subst hE
      have h := ih g hrun hrest
      simp only [input_loop, hrun, if_false, if_true]
      rw [apply_keys_cons_EOF L _ _ (by decide) (by decide),
        apply_keys_cons_EOF L _ _ (by decide) (by decide),
        apply_keys_cons_EOF L _ _ (by decide) (by decide)]
      exact h
    · have hk := key_switch_keep_running g ch hx
      have h := ih (key_switch g ch) (by rw [hk]; exact hrun) hrest
      have hm := key_switch_mods g ch
      simp only [input_loop, hrun, hE, if_false]
      refine ⟨?_, ?_, ?_, ?_, h.2.2.2.2.1, h.2.2.2.2.2⟩
      · rw [h.1, hm.1]
        rfl
      · rw [h.2.1, hm.2.1]
        rfl
      · rw [h.2.2.1, hm.2.2]
        rfl
      · rw [h.2.2.2.1, hk]

/-- The polling loop on a script whose first quit key comes after `pre`: the loop exits
on that key with the scalars as `pre` left them, and `post` is not read. -/
theorem input_loop_quit (L : LibC) (g : Globals R) (pre post : List Int)
    (hrun : g.keep_running ≠ 0) (hquit : cchar 'x' ∉ pre) :
    (input_loop L g (pre ++ cchar 'x' :: post)).globals
        = { (input_loop L g pre).globals with keep_running := 0 }
      ∧ (input_loop L g (pre ++ cchar 'x' :: post)).stdin = post
      ∧ (input_loop L g (pre ++ cchar 'x' :: post)).exited = true := by
  induction pre generalizing g with
  | nil =>
    have hE : cchar 'x' ≠ L.EOF := by
      have := L.EOF_neg
      have e : cchar 'x' = 120 := rfl
      omega
    cases post with
    | nil => simp [input_loop, hrun, hE, key_switch_quit]
    | cons p ps => simp [input_loop, hrun, hE, key_switch_quit]
  | cons ch rest ih =>
    have hx : ch ≠ cchar 'x' := fun h => hquit (h ▸ List.mem_cons_self _ _)
    have hrest : cchar 'x' ∉ rest := fun h => hquit (List.mem_cons_of_mem _ h)
    by_cases hE : ch = L.EOF
    · have h := ih g hrun hrest
      simp only [List.cons_append, input_loop, hrun, hE, if_false, if_true]
      exact h
    · have hk := key_switch_keep_running g ch hx
      have h := ih (key_switch g ch) (by rw [hk]; exact hrun) hrest
      simp only [List.cons_append, input_loop, hrun, hE, if_false]
      exact h

end Control

/-- Keys of other scalars, unrecognized keys and `EOF` leave a scalar as it is. -/
theorem apply_keys_other {R : Type} [Add R] [Sub R] [OfScientific R] (inc dec : Int) (v : R)
    (script : List Int) (h : ∀ ch ∈ script, ch ≠ inc ∧ ch ≠ dec) :
    apply_keys inc dec v script = v := by
  induction script generalizing v with
  | nil => rfl
  | cons ch rest ih =>
    have h1 := h ch (List.mem_cons_self _ _)
    have h2 := ih v (fun c hc => h c (List.mem_cons_of_mem _ hc))
    simp only [apply_keys, List.foldl_cons, h1.1, h1.2, if_false]
    exact h2

/-- In exact (rational) arithmetic a scalar moves by `0.1` times the difference between
the numbers of its increment and decrement keys. -/
theorem apply_keys_exact (inc dec : Int) (hne : inc ≠ dec) (v : ℚ) (script : List Int) :
    apply_keys inc dec v script
      = v + ((script.count inc : ℚ) - (script.count dec : ℚ)) * 0.1 := by
  induction script generalizing v with
  | nil => simp [apply_keys]
  | cons ch rest ih =>
    have hstep : apply_keys inc dec v (ch :: rest)
        = apply_keys inc dec
            (if ch = inc then v + 0.1 else if ch = dec then v - 0.1 else v) rest := rfl
    rw [hstep, ih]
    by_cases h1 : ch = inc
    · subst h1
      have h2 : ¬ ch = dec := hne
      have c1 : List.count ch (ch :: rest) = List.count ch rest + 1 := by simp
      have c2 : List.count dec (ch :: rest) = List.count dec rest := by
        simp [List.count_cons, h2]
      rw [c1, c2]
      simp only [if_true]
      push_cast
      ring
    · by_cases h2 : ch = dec
      · subst h2
        have c1 : List.count ch (ch :: rest) = List.count ch rest + 1 := by simp
        have c2 : List.count inc (ch :: rest) = List.count inc rest := by
          simp [List.count_cons, h1]
        rw [c1, c2]
        simp only [h1, if_false, if_true]
        push_cast
        ring
      · have c1 : List.count inc (ch :: rest) = List.count inc rest := by
          simp [List.count_cons, h1]
        have c2 : List.count dec (ch :: rest) = List.count dec rest := by
          simp [List.count_cons, h2]
        rw [c1, c2]
        simp only [h1, h2, if_false]

/-- C5 (as amended): starting from any globals with `keep_running` set, after the control
thread has processed a keystroke sequence without the quit key, each modulation scalar is
the result of applying to its initial value, in keystroke order, one `double` addition of
`0.1` per increment key and one `double` subtraction of `0.1` per decrement key, with
no floor or ceiling clamp; keys of the other two scalars, unrecognized keys and `EOF`
leave it unchanged.  In exact arithmetic this value is
`initial + 0.1 * (increments - decrements)`; in `double` arithmetic every addition and
subtraction is rounded, so the two agree only up to rounding: five consecutive increments
of `fo_mod_ap` from `1.0` give `6755399441055746 * 2^-52 = 1.5000000000000004`, which is
not `1.5 = 6755399441055744 * 2^-52`, with the other two scalars still `1.0`. -/
theorem C5_modulation_steps {R : Type} [Add R] [Sub R] [OfScientific R] (L : LibC)
    (tty : Terminal) (g : Globals R) (script : List Int)
    (hrun : g.keep_running ≠ 0) (hquit : cchar 'x' ∉ script) :
    (input_thread_fn L tty g script).globals.fo_mod_ap
        = apply_keys (cchar 'q') (cchar 'a') g.fo_mod_ap script
      ∧ (input_thread_fn L tty g script).globals.fo_mod_sp
        = apply_keys (cchar 'w') (cchar 's') g.fo_mod_sp script
      ∧ (input_thread_fn L tty g script).globals.fo_mod_syn
        = apply_keys (cchar 'e') (cchar 'd') g.fo_mod_syn script
      ∧ (input_thread_fn L tty g script).globals.keep_running = g.keep_running
      ∧ (input_thread_fn L tty g script).stdin = []
      ∧ (∀ (inc dec : Int) (v : R) (s : List Int), (∀ ch ∈ s, ch ≠ inc ∧ ch ≠ dec) →
          apply_keys inc dec v s = v)
      ∧ (∀ (inc dec : Int) (v : ℚ) (s : List Int), inc ≠ dec →
          apply_keys inc dec v s = v + ((s.count inc : ℚ) - (s.count dec : ℚ)) * 0.1)
      ∧ (input_thread_fn L tty (Globals.init : Globals F64)
            (List.replicate 5 (cchar 'q'))).globals
          = { fo_mod_ap := F64.finite 6755399441055746 (-52), fo_mod_sp := 1.0,
              fo_mod_syn := 1.0, keep_running := 1 }
      ∧ (1.5 : F64) = F64.finite 6755399441055744 (-52) := by
  have h := input_loop_no_quit L g script hrun hquit
  have h5 := input_loop_no_quit L (Globals.init : Globals F64) (List.replicate 5 (cchar 'q'))
    (by decide) (by decide)
  refine ⟨h.1, h.2.1, h.2.2.1, h.2.2.2.1, h.2.2.2.2.1,
    fun inc dec v s hs => apply_keys_other inc dec v s hs,
    fun inc dec v s hne => apply_keys_exact inc dec hne v s, ?_, by decide⟩
  show (input_loop L (Globals.init : Globals F64) (List.replicate 5 (cchar 'q'))).globals = _
  have e : ∀ a b : Globals F64, a.fo_mod_ap = b.fo_mod_ap → a.fo_mod_sp = b.fo_mod_sp →
      a.fo_mod_syn = b.fo_mod_syn → a.keep_running = b.keep_running → a = b := by
    intro a b h1 h2 h3 h4
    cases a
    cases b
    simp_all
  apply e
  · rw [h5.1]
    decide
  · rw [h5.2.1]
    decide
  · rw [h5.2.2.1]
    decide
  · rw [h5.2.2.2.1]
    decide

/-- Witness of C5: the script `q q a w <EOF> z` from the initial globals. -/
theorem C5_modulation_steps_witness :
    ((Globals.init : Globals F64).keep_running ≠ 0
      ∧ cchar 'x' ∉ [cchar 'q', cchar 'q', cchar 'a', cchar 'w', -1, cchar 'z'])
    ∧ ((input_thread_fn linuxLibC cookedTerminal (Globals.init : Globals F64)
          [cchar 'q', cchar 'q', cchar 'a', cchar 'w', -1, cchar 'z']).globals.fo_mod_ap
        = apply_keys (cchar 'q') (cchar 'a') (Globals.init : Globals F64).fo_mod_ap
          [cchar 'q', cchar 'q', cchar 'a', cchar 'w', -1, cchar 'z']
      ∧ (input_thread_fn linuxLibC cookedTerminal (Globals.init : Globals F64)
          [cchar 'q', cchar 'q', cchar 'a', cchar 'w', -1, cchar 'z']).globals.fo_mod_sp
        = apply_keys (cchar 'w') (cchar 's') (Globals.init : Globals F64).fo_mod_sp
          [cchar 'q', cchar 'q', cchar 'a', cchar 'w', -1, cchar 'z']
      ∧ (input_thread_fn linuxLibC cookedTerminal (Globals.init : Globals F64)
          [cchar 'q', cchar 'q', cchar 'a', cchar 'w', -1, cchar 'z']).globals.fo_mod_syn
        = apply_keys (cchar 'e') (cchar 'd') (Globals.init : Globals F64).fo_mod_syn
          [cchar 'q', cchar 'q', cchar 'a', cchar 'w', -1, cchar 'z']) :=
  ⟨⟨by decide, by decide⟩,
   (C5_modulation_steps linuxLibC cookedTerminal (Globals.init : Globals F64)
      [cchar 'q', cchar 'q', cchar 'a', cchar 'w', -1, cchar 'z'] (by decide) (by decide)).1,
   (C5_modulation_steps linuxLibC cookedTerminal (Globals.init : Globals F64)
      [cchar 'q', cchar 'q', cchar 'a', cchar 'w', -1, cchar 'z'] (by decide) (by decide)).2.1,
   (C5_modulation_steps linuxLibC cookedTerminal (Globals.init : Globals F64)
      [cchar 'q', cchar 'q', cchar 'a', cchar 'w', -1, cchar 'z'] (by decide)
      (by decide)).2.2.1⟩

/-- Counterexample to C5 as stated: after five consecutive increments of `fo_mod_ap` from
the initial globals the scalar is `1.5000000000000004`; it equals neither the double
`1.5` nor the double value of the expression `1.0 + 5 * 0.1`. -/
theorem C5_counterexample :
    (input_thread_fn linuxLibC cookedTerminal (Globals.init : Globals F64)
        [cchar 'q', cchar 'q', cchar 'q', cchar 'q', cchar 'q']).globals.fo_mod_ap
        = F64.finite 6755399441055746 (-52)
      ∧ (input_thread_fn linuxLibC cookedTerminal (Globals.init : Globals F64)
        [cchar 'q', cchar 'q', cchar 'q', cchar 'q', cchar 'q']).globals.fo_mod_ap
        ≠ (1.5 : F64)
      ∧ (input_thread_fn linuxLibC cookedTerminal (Globals.init : Globals F64)
        [cchar 'q', cchar 'q', cchar 'q', cchar 'q', cchar 'q']).globals.fo_mod_ap
        ≠ (1.0 : F64) + 5.0 * 0.1 := by
  decide

/-- C9: when the control loop reads the quit key (the first `x` of the script, after the
keystrokes `pre`, with `keep_running` set on entry), `keep_running` becomes 0, the three
modulation scalars are what `pre` made them, the loop exits and `input_thread_fn` returns
with the terminal attributes saved on entry restored; the keystrokes `post` after the
quit key are never read and have no effect.  Before the quit key the thread had not
returned. -/
theorem C9_quit_key {R : Type} [Add R] [Sub R] [OfScientific R] (L : LibC)
    (tty : Terminal) (g : Globals R) (pre post : List Int)
    (hrun : g.keep_running ≠ 0) (hquit : cchar 'x' ∉ pre) :
    (input_thread_fn L tty g (pre ++ cchar 'x' :: post)).returned = true
      ∧ (input_thread_fn L tty g (pre ++ cchar 'x' :: post)).globals.keep_running = 0
      ∧ (input_thread_fn L tty g (pre ++ cchar 'x' :: post)).globals.mods
          = (input_thread_fn L tty g pre).globals.mods
      ∧ (input_thread_fn L tty g (pre ++ cchar 'x' :: post)).stdin = post
      ∧ (input_thread_fn L tty g (pre ++ cchar 'x' :: post)).tty.attrs = tty.attrs
      ∧ (input_thread_fn L tty g pre).returned = false
      ∧ (∀ post2 : List Int,
          (input_thread_fn L tty g (pre ++ cchar 'x' :: post2)).globals
            = (input_thread_fn L tty g (pre ++ cchar 'x' :: post)).globals) := by
  have hq := input_loop_quit L g pre post hrun hquit
  have hn := input_loop_no_quit L g pre hrun hquit
  refine ⟨hq.2.2, ?_, ?_, hq.2.1, ?_, hn.2.2.2.2.2, ?_⟩
  · show (input_loop L g (pre ++ cchar 'x' :: post)).globals.keep_running = 0
    rw [hq.1]
  · show (input_loop L g (pre ++ cchar 'x' :: post)).globals.mods
      = (input_loop L g pre).globals.mods
    rw [hq.1]
    rfl
  · simp only [input_thread_fn, hq.2.2, if_true]
  · intro post2
    show (input_loop L g (pre ++ cchar 'x' :: post2)).globals
      = (input_loop L g (pre ++ cchar 'x' :: post)).globals
    rw [hq.1, (input_loop_quit L g pre post2 hrun hquit).1]

/-- Witness of C9: the script `q <EOF> x e e` from the initial globals on a Linux
terminal in canonical mode. -/
theorem C9_quit_key_witness :
    ((Globals.init : Globals F64).keep_running ≠ 0 ∧ cchar 'x' ∉ [cchar 'q', -1])
    ∧ ((input_thread_fn linuxLibC cookedTerminal (Globals.init : Globals F64)
          ([cchar 'q', -1] ++ cchar 'x' :: [cchar 'e', cchar 'e'])).returned = true
      ∧ (input_thread_fn linuxLibC cookedTerminal (Globals.init : Globals F64)
          ([cchar 'q', -1] ++ cchar 'x' :: [cchar 'e', cchar 'e'])).globals.keep_running = 0
      ∧ (input_thread_fn linuxLibC cookedTerminal (Globals.init : Globals F64)
          ([cchar 'q', -1] ++ cchar 'x' :: [cchar 'e', cchar 'e'])).globals.mods
          = (input_thread_fn linuxLibC cookedTerminal (Globals.init : Globals F64)
              [cchar 'q', -1]).globals.mods
      ∧ (input_thread_fn linuxLibC cookedTerminal (Globals.init : Globals F64)
          ([cchar 'q', -1] ++ cchar 'x' :: [cchar 'e', cchar 'e'])).stdin
          = [cchar 'e', cchar 'e']
      ∧ (input_thread_fn linuxLibC cookedTerminal (Globals.init : Globals F64)
          ([cchar 'q', -1] ++ cchar 'x' :: [cchar 'e', cchar 'e'])).tty.attrs
          = cookedTerminal.attrs
      ∧ (input_thread_fn linuxLibC cookedTerminal (Globals.init : Globals F64)
          [cchar 'q', -1]).returned = false
      ∧ (∀ post2 : List Int,
          (input_thread_fn linuxLibC cookedTerminal (Globals.init : Globals F64)
            ([cchar 'q', -1] ++ cchar 'x' :: post2)).globals
            = (input_thread_fn linuxLibC cookedTerminal (Globals.init : Globals F64)
              ([cchar 'q', -1] ++ cchar 'x' :: [cchar 'e', cchar 'e'])).globals)) :=
  ⟨⟨by decide, by decide⟩,
   C9_quit_key linuxLibC cookedTerminal (Globals.init : Globals F64)
     [cchar 'q', -1] [cchar 'e', cchar 'e'] (by decide) (by decide)⟩

end Reim
